import Mathlib

/-!
Shallow embedding of the china_gtfs MetroMan client: the value codec,
geometry codec, coordinate transform and the city loader with its trip
reconstruction engine.  Definitions are transcribed from the Go source
(`metroman_client` package and `common/zip.go`); machine integers are
modelled as `Int`/`Nat` (no value in the decoders approaches 64-bit
overflow), Go float64 coordinates are modelled as `ℚ` (the claims under
verification never depend on float rounding), and Go runtime panics and
`error` returns are modelled as `Except String` / `Option`.
-/

namespace ChinaGtfs

/-! ## Value codec (source part_003) -/

/-- Function `ParseChar` from the source: maps one byte to a 6-bit value, `-1` for a
byte outside the 64-symbol alphabet.  Byte comparisons are transcribed from
the Go character ranges (`A`=65..`Z`=90, `a`=97..`z`=122, `0`=48..`9`=57,
`+`=43, `/`=47). -/
def ParseChar (b : Nat) : Int :=
  if 65 ≤ b ∧ b ≤ 90 then ((b - 65 : Nat) : Int)
  else if 97 ≤ b ∧ b ≤ 122 then ((b - 97 + 26 : Nat) : Int)
  else if 48 ≤ b ∧ b ≤ 57 then ((b - 48 + 52 : Nat) : Int)
  else if b = 43 then 62
  else if b = 47 then 63
  else -1

/-- The 64-symbol alphabet in the order the spec lists it:
`A`–`Z`, `a`–`z`, `0`–`9`, `+`, `/` (as byte values). -/
def alphabet64 : List Nat :=
  (List.range 26).map (fun i => 65 + i) ++
  (List.range 26).map (fun i => 97 + i) ++
  (List.range 10).map (fun i => 48 + i) ++
  [43, 47]

/-! ## Geometry codec (source part_003) -/

/-- A decoded geometry: the Go `GeoDiff` struct.  `type` is the Go
`GeoType` int (`GEO_TYPE_AREA`=0, `GEO_TYPE_LINE`=1, `GEO_TYPE_POINT`=2,
unknown = -1). -/
structure GeoDiff where
  type : Int
  points : List (ℚ × ℚ)
  deriving DecidableEq, Inhabited

/-- Function `GetGeoType` from the source: first character of a segment selects the
geometry kind, everything else maps to `-1`. -/
def GetGeoType (c : Char) : Int :=
  if c = '.' then 2
  else if c = '-' then 1
  else if c = '*' then 0
  else -1

/-- One little-endian base-64 digit group: digit `i` contributes
`value <<< (6*i)`; any invalid character fails the group (the Go loops in
`Parse13Block`/`Parse8Block` return `false` when `ParseChar` is negative). -/
def parseGroup : List Char → Option Int
  | [] => some 0
  | b :: rest =>
    if ParseChar b.toNat < 0 then none
    else (parseGroup rest).map (fun v => ParseChar b.toNat + 64 * v)

/-- Function `Parse13Block` from the source: skip the 1-byte selector, then two
6-character groups give absolute X and Y, replacing the running point. -/
def Parse13Block (block : List Char) : Option (Int × Int) :=
  match parseGroup ((block.drop 1).take 6), parseGroup ((block.drop 7).take 6) with
  | some x, some y => some (x, y)
  | _, _ => none

/-- Constant `MAX_DELTA_VALUE` from the source: `1 << 23`. -/
def MAX_DELTA_VALUE : Int := 8388608

/-- Function `Parse8Block` from the source: two 4-character groups give `delta_x`
and `delta_y`; a delta strictly greater than `MAX_DELTA_VALUE` is replaced
by `MAX_DELTA_VALUE - delta`; the deltas are added to the running point. -/
def Parse8Block (block : List Char) (cur : Int × Int) : Option (Int × Int) :=
  match parseGroup (block.take 4), parseGroup ((block.drop 4).take 4) with
  | some dx, some dy =>
    let dx := if dx > MAX_DELTA_VALUE then MAX_DELTA_VALUE - dx else dx
    let dy := if dy > MAX_DELTA_VALUE then MAX_DELTA_VALUE - dy else dy
    some (cur.1 + dx, cur.2 + dy)
  | _, _ => none

/-- The block-consuming loop of `DecodeGeoDiff`, with a step-count fuel
first argument so that the recursion is structural (each step consumes at
least one character, so `data.length` fuel always suffices; see
`decodeLoop`).  Walks the data after the selector, consuming 13-character
absolute blocks, `;` resets, and 8-character delta blocks; `none` models
the Go early `return GeoDiff{}` (truncated block or invalid symbol),
discarding the points decoded so far. -/
def decodeLoopF : Nat → List Char → Int × Int → Option (List (Int × Int))
  | _, [], _ => some []
  | 0, _ :: _, _ => none
  | fuel + 1, c :: rest, cur =>
    if c = '=' ∨ c = '-' then
      if (c :: rest).length < 13 then none
      else
        match Parse13Block ((c :: rest).take 13) with
        | none => none
        | some p => (decodeLoopF fuel ((c :: rest).drop 13) p).map (fun ps => p :: ps)
    else if c = ';' then decodeLoopF fuel rest (0, 0)
    else
      if (c :: rest).length < 8 then none
      else
        match Parse8Block ((c :: rest).take 8) cur with
        | none => none
        | some p => (decodeLoopF fuel ((c :: rest).drop 8) p).map (fun ps => p :: ps)

/-- The block loop of `DecodeGeoDiff` over the data after the selector. -/
def decodeLoop (data : List Char) (cur : Int × Int) : Option (List (Int × Int)) :=
  decodeLoopF data.length data cur

/-- Function `DecodeGeoDiff` from the source: first character is the kind selector,
the rest is decoded by the block loop; every failure path returns the Go
zero value `GeoDiff{}` (type 0, no points); on success every point is
divided by 100. -/
def DecodeGeoDiff (encoded : List Char) : GeoDiff :=
  match encoded with
  | [] => { type := 0, points := [] }
  | c :: geoData =>
    match decodeLoop geoData (0, 0) with
    | none => { type := 0, points := [] }
    | some pts =>
      { type := GetGeoType c
        points := pts.map (fun p => ((p.1 : ℚ) / 100, (p.2 : ℚ) / 100)) }

/-- Go `strings.Split` on a single-character separator. -/
def splitSep1 (a : Char) : List Char → List Char → List (List Char)
  | [], cur => [cur.reverse]
  | c :: rest, cur =>
    if c = a then cur.reverse :: splitSep1 a rest []
    else splitSep1 a rest (c :: cur)

/-- Go `strings.Split` on a two-character separator (used for `\r\n`). -/
def splitSep2 (a b : Char) : List Char → List Char → List (List Char)
  | [], cur => [cur.reverse]
  | [c], cur => [(c :: cur).reverse]
  | x :: y :: rest, cur =>
    if x = a ∧ y = b then cur.reverse :: splitSep2 a b rest []
    else splitSep2 a b (y :: rest) (x :: cur)

/-- Go `strings.Split` on a three-character separator (used for `<,>`). -/
def splitSep3 (a b c : Char) : List Char → List Char → List (List Char)
  | [], cur => [cur.reverse]
  | [x], cur => [(x :: cur).reverse]
  | [x, y], cur => [(y :: x :: cur).reverse]
  | x :: y :: z :: rest, cur =>
    if x = a ∧ y = b ∧ z = c then cur.reverse :: splitSep3 a b c rest []
    else splitSep3 a b c (y :: z :: rest) (x :: cur)

/-- Function `DecodeCombinedGeoDiff` from the source: split on `|`, decode each
segment, and append only the decodes with a nonempty point list. -/
def DecodeCombinedGeoDiff (encoded : List Char) : List GeoDiff :=
  (splitSep1 '|' encoded []).foldl
    (fun acc elem =>
      let decoded := DecodeGeoDiff elem
      if decoded.points ≠ [] then acc ++ [decoded] else acc)
    []

/-- The spec's description of a failing segment body, stated over the data
after the kind selector: walking the data in blocks, at some reachable
position either fewer characters remain than the current block requires
(13 for an absolute block, 8 for a delta block) or a value character of
the block is outside the 64-symbol alphabet. -/
inductive SegFails : List Char → Prop where
  | absShort (c : Char) (rest : List Char) :
      (c = '=' ∨ c = '-') → (c :: rest).length < 13 → SegFails (c :: rest)
  | absBad (c : Char) (rest : List Char) :
      (c = '=' ∨ c = '-') → ¬ (c :: rest).length < 13 →
      (∃ b ∈ ((c :: rest).take 13).drop 1, ParseChar b.toNat = -1) →
      SegFails (c :: rest)
  | absStep (c : Char) (rest : List Char) :
      (c = '=' ∨ c = '-') → ¬ (c :: rest).length < 13 →
      (∀ b ∈ ((c :: rest).take 13).drop 1, ParseChar b.toNat ≠ -1) →
      SegFails ((c :: rest).drop 13) → SegFails (c :: rest)
  | semi (rest : List Char) : SegFails rest → SegFails (';' :: rest)
  | deltaShort (c : Char) (rest : List Char) :
      ¬ (c = '=' ∨ c = '-') → c ≠ ';' → (c :: rest).length < 8 →
      SegFails (c :: rest)
  | deltaBad (c : Char) (rest : List Char) :
      ¬ (c = '=' ∨ c = '-') → c ≠ ';' → ¬ (c :: rest).length < 8 →
      (∃ b ∈ (c :: rest).take 8, ParseChar b.toNat = -1) →
      SegFails (c :: rest)
  | deltaStep (c : Char) (rest : List Char) :
      ¬ (c = '=' ∨ c = '-') → c ≠ ';' → ¬ (c :: rest).length < 8 →
      (∀ b ∈ (c :: rest).take 8, ParseChar b.toNat ≠ -1) →
      SegFails ((c :: rest).drop 8) → SegFails (c :: rest)

/-! ## Coordinate transform (source part_003) -/

/-- The Go `Coordinate` struct (float64 modelled as `ℚ`). -/
structure Coordinate where
  lat : ℚ
  lng : ℚ
  deriving DecidableEq, Inhabited

/-- Function `OutOfChina` from the source: true outside longitude
[72.004, 137.8347] or latitude [0.8293, 55.8271]. -/
def OutOfChina (lng lat : ℚ) : Bool :=
  if lng < 72.004 ∨ lng > 137.8347 then true
  else if lat < 0.8293 ∨ lat > 55.8271 then true
  else false

/-- Function `GCJ02ToWGS84` from the source.  The transcendental offset
`GCJ02Delta` (sine/square-root polynomial noise) is abstracted as the
function argument `delta`, since every claim under verification is
independent of its value; the branch structure is the source's. -/
def GCJ02ToWGS84 (delta : ℚ → ℚ → ℚ × ℚ) (coord : Coordinate) : Coordinate :=
  if ¬ OutOfChina coord.lng coord.lat then
    let d := delta coord.lng coord.lat
    { lat := coord.lat - d.2, lng := coord.lng - d.1 }
  else coord

/-- Function `GCJ02FromWGS84` from the source, with `GCJ02Delta` abstracted as in
`GCJ02ToWGS84`. -/
def GCJ02FromWGS84 (delta : ℚ → ℚ → ℚ × ℚ) (coord : Coordinate) : Coordinate :=
  if ¬ OutOfChina coord.lng coord.lat then
    let d := delta coord.lng coord.lat
    { lat := coord.lat + d.2, lng := coord.lng + d.1 }
  else coord

/-! ## Go runtime helpers for the loader embedding

The loader is transcribed into `Except String`: a Go `error` return and a
Go runtime panic (out-of-range index or slice, nil-pointer dereference)
both become `Except.error`.  Go `map` values become association lists with
overwrite-on-insert; iteration order over such a map (unspecified in Go,
see the spec's design note on tie-breaking) is modelled as insertion
order. -/

/-- Lookup in a Go map modelled as an association list. -/
def mapLookup {α β : Type} [DecidableEq α] : List (α × β) → α → Option β
  | [], _ => none
  | (k2, v) :: rest, k => if k2 = k then some v else mapLookup rest k

/-- Insert into a Go map: overwrite in place, else append. -/
def mapInsert {α β : Type} [DecidableEq α] : List (α × β) → α → β → List (α × β)
  | [], k, v => [(k, v)]
  | (k2, v2) :: rest, k, v =>
    if k2 = k then (k, v) :: rest else (k2, v2) :: mapInsert rest k v

/-- Read from a Go map with the zero value `d` for a missing key. -/
def mapGetD {α β : Type} [DecidableEq α] (m : List (α × β)) (k : α) (d : β) : β :=
  (mapLookup m k).getD d

/-- Go slice indexing `xs[i]`: panics when out of range. -/
def goIndex {α : Type} (xs : List α) (i : Nat) : Except String α :=
  match xs.get? i with
  | some v => Except.ok v
  | none => Except.error "panic: index out of range"

/-- Go slice indexing with an `int` index (negative panics). -/
def goIndexInt {α : Type} (xs : List α) (i : Int) : Except String α :=
  if 0 ≤ i then goIndex xs i.toNat else Except.error "panic: index out of range"

/-- Go slicing `xs[lo:hi]`: panics unless `lo ≤ hi ≤ len`. -/
def goSlice {α : Type} (xs : List α) (lo hi : Nat) : Except String (List α) :=
  if lo ≤ hi ∧ hi ≤ xs.length then Except.ok ((xs.take hi).drop lo)
  else Except.error "panic: slice bounds out of range"

/-- Go slicing `xs[lo:]`: panics unless `lo ≤ len`. -/
def goSliceFrom {α : Type} (xs : List α) (lo : Nat) : Except String (List α) :=
  if lo ≤ xs.length then Except.ok (xs.drop lo)
  else Except.error "panic: slice bounds out of range"

/-- Go slicing with `int` bounds (used for `all_latlng_coords[lower:upper+1]`). -/
def goSliceInt {α : Type} (xs : List α) (lo hi : Int) : Except String (List α) :=
  if 0 ≤ lo ∧ lo ≤ hi ∧ hi ≤ (xs.length : Int) then
    Except.ok ((xs.take hi.toNat).drop lo.toNat)
  else Except.error "panic: slice bounds out of range"

/-- Decimal digit run to a value, failing on a non-digit; empty fails
(`strconv` rejects an empty digit string). -/
def digitsValAux : List Char → Nat → Option Nat
  | [], acc => some acc
  | c :: rest, acc =>
    if '0' ≤ c ∧ c ≤ '9' then digitsValAux rest (acc * 10 + (c.toNat - 48))
    else none

/-- Nonempty decimal digit run to a value. -/
def digitsVal : List Char → Option Nat
  | [] => none
  | cs => digitsValAux cs 0

/-- Go `strconv.ParseInt(s, 10, 0)` with the returned error discarded, as
the source does everywhere: an optional sign followed by digits parses
exactly, anything else yields the zero value 0.  The int64 clamp on
overflow is not modelled (no bundle field in the claims' scope approaches
2^63). -/
def parseIntD (s : List Char) : Int :=
  match s with
  | '+' :: rest => match digitsVal rest with | some n => (n : Int) | none => 0
  | '-' :: rest => match digitsVal rest with | some n => -(n : Int) | none => 0
  | cs => match digitsVal cs with | some n => (n : Int) | none => 0

/-- Split an integer part from the fraction after the first dot. -/
def splitDot : List Char → List Char × Option (List Char)
  | [] => ([], none)
  | '.' :: rest => ([], some rest)
  | c :: rest =>
    let p := splitDot rest
    (c :: p.1, p.2)

/-- Digit run that may be empty (the integer or fraction part of a float
literal may be empty, but not both). -/
def digitsVal0 : List Char → Option Nat
  | [] => some 0
  | cs => digitsVal cs

/-- Exact decimal value of a float literal body. -/
def parseFloatCore (cs : List Char) : Option ℚ :=
  let p := splitDot cs
  match p.2 with
  | none => (digitsVal p.1).map (fun n => (n : ℚ))
  | some fracs =>
    if p.1 = [] ∧ fracs = [] then none
    else
      match digitsVal0 p.1, digitsVal0 fracs with
      | some i, some f => some ((i : ℚ) + (f : ℚ) / (10 : ℚ) ^ fracs.length)
      | _, _ => none

/-- Go `strconv.ParseFloat` with the returned error discarded, on the
plain decimal forms the bundles carry (optional sign, digits, optional
fraction), giving the exact decimal value as `ℚ` and 0 on a syntax
error.  Exponent/hex/inf forms and float64 rounding are not modelled: no
claim under verification depends on a coordinate's numeric value. -/
def parseFloatD (s : List Char) : ℚ :=
  match s with
  | '+' :: rest => (parseFloatCore rest).getD 0
  | '-' :: rest => match parseFloatCore rest with | some q => -q | none => 0
  | cs => (parseFloatCore cs).getD 0

/-! ## Entity model (source part_005) -/

/-- The Go `MetromanDate` struct. -/
structure MetromanDate where
  year : Int
  month : Int
  day : Int
  deriving DecidableEq, Inhabited

/-- The Go `MetromanSchedule` struct (the `[7]int` day vector as a list). -/
structure MetromanSchedule where
  code : List Char
  daysOfWeek : List Int
  holidays : Bool
  deriving DecidableEq, Inhabited

/-- The Go `MetromanStation` struct.  Stations are immutable once created,
so Go `*MetromanStation` pointers are modelled as plain values. -/
structure MetromanStation where
  code : List Char
  index : Nat
  englishName : List Char
  simplifiedName : List Char
  traditionalName : List Char
  japaneseName : List Char
  englishShortName : List Char
  shortName : List Char
  lat : ℚ
  lng : ℚ
  subwayMapX : Int
  subwayMapY : Int
  deriving DecidableEq, Inhabited

/-- The Go `MetromanStationVisit` struct. -/
structure MetromanStationVisit where
  station : MetromanStation
  arrivalAndDepartMinutes : Int
  deriving DecidableEq, Inhabited

/-- The Go `MetromanTrip` struct. -/
structure MetromanTrip where
  tripEnded : Bool
  visits : List MetromanStationVisit
  deriving DecidableEq, Inhabited

/-- The Go `MetromanLine` struct.  Lines are mutated through shared
pointers during loading, so `*MetromanLine` values live in an arena (the
`lines` list) and the by-code map stores arena indices. -/
structure MetromanLine where
  code : List Char
  englishName : List Char
  simplifiedName : List Char
  traditionalName : List Char
  japaneseName : List Char
  shortName : List Char
  color : List Char
  stations : List MetromanStation
  stationPaths : List (List Char × List Coordinate)
  deriving DecidableEq, Inhabited

/-- The Go `MetromanRoute` struct, arena-indexed like lines.  `lineIdx`
models the `Line *MetromanLine` back-pointer as an index into the lines
arena (`none` is Go's nil before way.csv assigns it); `schedules` holds
`Option` values because looking up a missing schedule code appends a Go
nil pointer. -/
structure MetromanRoute where
  code : List Char
  englishName : List Char
  simplifiedName : List Char
  traditionalName : List Char
  japaneseName : List Char
  stations : List MetromanStation
  stationToScheduleIndex : List (Nat × Nat)
  lineIdx : Option Nat
  idxWithinLine : Int
  schedules : List (Option MetromanSchedule)
  trips : List (List MetromanTrip)
  deriving DecidableEq, Inhabited

/-- The Go `MetromanCity` struct (the fields `LoadCity` fills). -/
structure MetromanCity where
  lines : List MetromanLine
  routes : List MetromanRoute
  stations : List MetromanStation
  stationsByName : List (List Char × MetromanStation)
  stationsByCode : List (List Char × MetromanStation)
  fareMatrices : List (List (List Int))
  fareMatrixStations : List (List (Option MetromanStation))
  holidays : List MetromanDate
  scheduleDef : List (List Char × MetromanSchedule)
  deriving DecidableEq, Inhabited

/-- Function `ReadFileFromZip` from `common/zip.go`: the first file whose
name matches; a missing name is the typed not-found condition (`none`).
The zip archive is modelled as a name-to-contents list. -/
def ReadFileFromZip (bundle : List (List Char × List Char)) (name : List Char) :
    Option (List Char) :=
  match bundle with
  | [] => none
  | (n, c) :: rest => if n = name then some c else ReadFileFromZip rest name

/-! ## Archive entity loader (source part_005, `LoadCity` steps 1–7) -/

/-- The loader's accumulated state for the entity tables: the arenas and
by-code maps `LoadCity` builds up (`lines`, `routes`, `stations`,
`stations_by_name`, `stations_by_code`, `lines_by_code`, `routes_by_code`,
`station_index`).  The by-code maps for lines and routes store arena
indices, modelling Go's shared pointers. -/
structure UnoState where
  lines : List MetromanLine
  routes : List MetromanRoute
  stations : List MetromanStation
  stationsByName : List (List Char × MetromanStation)
  stationsByCode : List (List Char × MetromanStation)
  linesByCode : List (List Char × Nat)
  routesByCode : List (List Char × Nat)
  stationIndex : Nat
  deriving DecidableEq, Inhabited

/-- The empty loader state before uno.csv is read. -/
def emptyUnoState : UnoState := ⟨[], [], [], [], [], [], [], 0⟩

/-- One record of uno.csv (fields separated by `<,>`): an `MS` record
appends a station with the running index, `ML`/`WL` a line, `MW`/`WW` a
route.  The Go source uses three independent `if` statements; the type
tags are mutually exclusive, so an if/else chain is equivalent. -/
def parseUnoRecord (gd : ℚ → ℚ → ℚ × ℚ) (st : UnoState) (line : List Char) :
    Except String UnoState := do
  let r := splitSep3 '<' ',' '>' line []
  let f1 ← goIndex r 1
  if f1 = "MS".data then do
    let f8 ← goIndex r 8
    let f9 ← goIndex r 9
    let f10 ← goIndex r 10
    let f11 ← goIndex r 11
    let f0 ← goIndex r 0
    let f2 ← goIndex r 2
    let f3 ← goIndex r 3
    let f4 ← goIndex r 4
    let f5 ← goIndex r 5
    let f6 ← goIndex r 6
    let f7 ← goIndex r 7
    let corrected := GCJ02ToWGS84 gd ⟨parseFloatD f8, parseFloatD f9⟩
    let station : MetromanStation :=
      { code := f0, index := st.stationIndex, englishName := f2,
        simplifiedName := f3, traditionalName := f4, japaneseName := f5,
        englishShortName := f6, shortName := f7,
        lat := corrected.lat, lng := corrected.lng,
        subwayMapX := parseIntD f10, subwayMapY := parseIntD f11 }
    Except.ok { st with
      stations := st.stations ++ [station]
      stationsByName := mapInsert st.stationsByName station.simplifiedName station
      stationsByCode := mapInsert st.stationsByCode station.code station
      stationIndex := st.stationIndex + 1 }
  else if f1 = "ML".data ∨ f1 = "WL".data then do
    let f0 ← goIndex r 0
    let f2 ← goIndex r 2
    let f3 ← goIndex r 3
    let f4 ← goIndex r 4
    let f5 ← goIndex r 5
    let f7 ← goIndex r 7
    let f12 ← goIndex r 12
    let ln : MetromanLine :=
      { code := f0, englishName := f2, simplifiedName := f3,
        traditionalName := f4, japaneseName := f5, shortName := f7,
        color := f12, stations := [], stationPaths := [] }
    Except.ok { st with
      lines := st.lines ++ [ln]
      linesByCode := mapInsert st.linesByCode ln.code st.lines.length }
  else if f1 = "MW".data ∨ f1 = "WW".data then do
    let f0 ← goIndex r 0
    let f2 ← goIndex r 2
    let f3 ← goIndex r 3
    let f4 ← goIndex r 4
    let f5 ← goIndex r 5
    let rt : MetromanRoute :=
      { code := f0, englishName := f2, simplifiedName := f3,
        traditionalName := f4, japaneseName := f5,
        stations := [], stationToScheduleIndex := [], lineIdx := none,
        idxWithinLine := 0, schedules := [], trips := [] }
    Except.ok { st with
      routes := st.routes ++ [rt]
      routesByCode := mapInsert st.routesByCode rt.code st.routes.length }
  else
    Except.ok st

/-- Fold `parseUnoRecord` over the uno.csv lines. -/
def parseUnoLines (gd : ℚ → ℚ → ℚ × ℚ) :
    UnoState → List (List Char) → Except String UnoState
  | st, [] => Except.ok st
  | st, l :: rest =>
    match parseUnoRecord gd st l with
    | Except.error e => Except.error e
    | Except.ok st2 => parseUnoLines gd st2 rest

/-- Resolve a run of station-index fields against the stations arena
(`stations[station_idx]`, panicking on an out-of-range index, with the
malformed-field-to-zero `ParseInt` tolerance). -/
def resolveStations (stations : List MetromanStation) :
    List (List Char) → Except String (List MetromanStation)
  | [] => Except.ok []
  | f :: rest => do
    let s ← goIndexInt stations (parseIntD f)
    let more ← resolveStations stations rest
    Except.ok (s :: more)

/-- One record of line.csv: `code,idx,idx,...` appends the indexed
stations to the line's station list.  A lookup of an unknown line code
yields a Go nil pointer, which panics on the first append; with no index
fields the loop body never runs, so no dereference happens. -/
def parseLineRecord (st : UnoState) (line : List Char) : Except String UnoState := do
  let r := splitSep1 ',' line []
  let f0 ← goIndex r 0
  let rest ← goSliceFrom r 1
  match rest with
  | [] => Except.ok st
  | _ =>
    match mapLookup st.linesByCode f0 with
    | none => Except.error "panic: nil pointer dereference"
    | some li => do
      let ln ← goIndex st.lines li
      let newSts ← resolveStations st.stations rest
      Except.ok { st with
        lines := st.lines.set li { ln with stations := ln.stations ++ newSts } }

/-- Fold `parseLineRecord` over the line.csv lines. -/
def parseLineLines : UnoState → List (List Char) → Except String UnoState
  | st, [] => Except.ok st
  | st, l :: rest =>
    match parseLineRecord st l with
    | Except.error e => Except.error e
    | Except.ok st2 => parseLineLines st2 rest

/-- Insertion into a sorted list (ascending), for `slices.Sort`. -/
def insertSorted (x : Nat) : List Nat → List Nat
  | [] => [x]
  | y :: rest => if x ≤ y then x :: y :: rest else y :: insertSorted x rest

/-- Ascending sort of station indices, `slices.Sort`. -/
def sortNat : List Nat → List Nat
  | [] => []
  | x :: rest => insertSorted x (sortNat rest)

/-- Rank map of a sorted index list: `m[v] = i` for each position. -/
def buildRankMapAux : List Nat → Nat → List (Nat × Nat) → List (Nat × Nat)
  | [], _, m => m
  | v :: rest, i, m => buildRankMapAux rest (i + 1) (mapInsert m v i)

/-- The route's station-to-schedule-position lookup: station indices
(terminal excluded), sorted ascending, mapped to their rank. -/
def buildRankMap (l : List Nat) : List (Nat × Nat) := buildRankMapAux l 0 []

/-- One record of way.csv: `code,line_idx,?,idx,idx,...` appends the
indexed stations to the route, builds `StationToScheduleIndex` from the
sorted non-terminal station indices, and assigns the line back-pointer
and the directional index within the line (`within_line_idx` counter
keyed by the line's code).  An unknown route code is a nil pointer —
every path through the Go loop body dereferences it — and an empty
station list panics on the `[:len-1]` slice. -/
def parseWayRecord (st : UnoState) (within : List (List Char × Int)) (line : List Char) :
    Except String (UnoState × List (List Char × Int)) := do
  let r := splitSep1 ',' line []
  let f0 ← goIndex r 0
  let rest ← goSliceFrom r 3
  match mapLookup st.routesByCode f0 with
  | none => Except.error "panic: nil pointer dereference"
  | some ri => do
    let rt ← goIndex st.routes ri
    let newSts ← resolveStations st.stations rest
    let allSts := rt.stations ++ newSts
    if allSts.length = 0 then Except.error "panic: slice bounds out of range"
    else do
      let stIdxs := (allSts.take (allSts.length - 1)).map (fun s => s.index)
      let s2s := buildRankMap (sortNat stIdxs)
      let f1 ← goIndex r 1
      let lineIdx := parseIntD f1
      if 0 ≤ lineIdx ∧ lineIdx.toNat < st.lines.length then do
        let ln ← goIndex st.lines lineIdx.toNat
        let w := mapGetD within ln.code 0
        let rt2 : MetromanRoute :=
          { rt with
            stations := allSts
            stationToScheduleIndex := s2s
            lineIdx := some lineIdx.toNat
            idxWithinLine := w }
        Except.ok ({ st with routes := st.routes.set ri rt2 },
          mapInsert within ln.code (w + 1))
      else Except.error "panic: index out of range"

/-- Fold `parseWayRecord` over the way.csv lines. -/
def parseWayLines : UnoState → List (List Char × Int) → List (List Char) →
    Except String UnoState
  | st, _, [] => Except.ok st
  | st, within, l :: rest =>
    match parseWayRecord st within l with
    | Except.error e => Except.error e
    | Except.ok (st2, within2) => parseWayLines st2 within2 rest

/-- Function `CSVToMatrixInt` from the source: read a comma-separated
integer table (malformed fields parse to 0); a missing file is an error
that aborts the city load. -/
def CSVToMatrixInt (bundle : List (List Char × List Char)) (name : List Char) :
    Except String (List (List Int)) :=
  match ReadFileFromZip bundle name with
  | none => Except.error "could not find file in zip"
  | some contents =>
    Except.ok ((splitSep2 '\r' '\n' contents []).map
      (fun l => (splitSep1 ',' l []).map parseIntD))

/-- One record of fare.csv:
`code,routes,fixed_price,matrix_file,station_codes`.  An empty
station-code list takes the stations of the referenced route (nil route
pointer panics on the `.Stations` read); otherwise each station code is
looked up, a missing code contributing a nil pointer (modelled `none`)
without a panic.  A named matrix file is loaded via `CSVToMatrixInt`
(missing file aborts the load); otherwise a square matrix of the fixed
price over the station list is built. -/
def parseFareRecord (bundle : List (List Char × List Char)) (pfx : List Char)
    (st : UnoState)
    (acc : List (List (List Int)) × List (List (Option MetromanStation)))
    (line : List Char) :
    Except String (List (List (List Int)) × List (List (Option MetromanStation))) := do
  let r := splitSep1 ',' line []
  let f4 ← goIndex r 4
  let stationCodes := splitSep1 '|' f4 []
  let stations ←
    if stationCodes = [[]] then do
      let f1 ← goIndex r 1
      let rc ← goIndex (splitSep1 '|' f1 []) 0
      match mapLookup st.routesByCode rc with
      | none => Except.error "panic: nil pointer dereference"
      | some ri => do
        let rt ← goIndex st.routes ri
        Except.ok (rt.stations.map some)
    else
      Except.ok (stationCodes.map (fun c => mapLookup st.stationsByCode c))
  let f3 ← goIndex r 3
  let matrix ←
    if f3 ≠ [] then
      CSVToMatrixInt bundle (pfx ++ '/' :: f3)
    else do
      let f2 ← goIndex r 2
      let fixed := parseIntD f2
      Except.ok (List.replicate stations.length (List.replicate stations.length fixed))
  Except.ok (acc.1 ++ [matrix], acc.2 ++ [stations])

/-- Fold `parseFareRecord` over the fare.csv lines. -/
def parseFareLines (bundle : List (List Char × List Char)) (pfx : List Char)
    (st : UnoState) :
    List (List (List Int)) × List (List (Option MetromanStation)) →
    List (List Char) →
    Except String (List (List (List Int)) × List (List (Option MetromanStation)))
  | acc, [] => Except.ok acc
  | acc, l :: rest =>
    match parseFareRecord bundle pfx st acc l with
    | Except.error e => Except.error e
    | Except.ok acc2 => parseFareLines bundle pfx st acc2 rest

/-- One record of holiday.csv: fixed-width `YYYYMMDD` byte slices (a line
shorter than 8 bytes panics on the string slice). -/
def parseHolidayRecord (line : List Char) : Except String MetromanDate := do
  let y ← goSlice line 0 4
  let m ← goSlice line 4 6
  let d ← goSlice line 6 8
  Except.ok ⟨parseIntD y, parseIntD m, parseIntD d⟩

/-- Fold `parseHolidayRecord` over the holiday.csv lines. -/
def parseHolidayLines : List MetromanDate → List (List Char) →
    Except String (List MetromanDate)
  | acc, [] => Except.ok acc
  | acc, l :: rest =>
    match parseHolidayRecord l with
    | Except.error e => Except.error e
    | Except.ok d => parseHolidayLines (acc ++ [d]) rest

/-- Map the seven day-of-week fields to bits (the Go loop reads
`bit_str[0]`, panicking on an empty field). -/
def parseScheduleBits : List (List Char) → Except String (List Int)
  | [] => Except.ok []
  | b :: rest => do
    let c ← goIndex b 0
    let more ← parseScheduleBits rest
    Except.ok ((if c = '1' then (1 : Int) else 0) :: more)

/-- One record of schedule.csv (fields separated by `<,>`): fields 1–7
are the day-of-week bits, field 9's first byte the holiday flag; the
definition is stored under the code in field 0 (overwriting). -/
def parseScheduleRecord (defs : List (List Char × MetromanSchedule)) (line : List Char) :
    Except String (List (List Char × MetromanSchedule)) := do
  let r := splitSep3 '<' ',' '>' line []
  let bits ← goSlice r 1 8
  let days ← parseScheduleBits bits
  let f9 ← goIndex r 9
  let c9 ← goIndex f9 0
  let f0 ← goIndex r 0
  Except.ok (mapInsert defs f0 ⟨f0, days, c9 = '1'⟩)

/-- Fold `parseScheduleRecord` over the schedule.csv lines. -/
def parseScheduleLines : List (List Char × MetromanSchedule) → List (List Char) →
    Except String (List (List Char × MetromanSchedule))
  | defs, [] => Except.ok defs
  | defs, l :: rest =>
    match parseScheduleRecord defs l with
    | Except.error e => Except.error e
    | Except.ok defs2 => parseScheduleLines defs2 rest

/-- One record of wayschedule.csv: `route_code,?,sched,sched,...` looks up
each schedule code (a missing code contributes a nil pointer) and assigns
the list to the route (nil route pointer panics). -/
def parseWayScheduleRecord (defs : List (List Char × MetromanSchedule))
    (st : UnoState) (line : List Char) : Except String UnoState := do
  let r := splitSep1 ',' line []
  let rest ← goSliceFrom r 2
  let schedules := rest.map (fun c => mapLookup defs c)
  let f0 ← goIndex r 0
  match mapLookup st.routesByCode f0 with
  | none => Except.error "panic: nil pointer dereference"
  | some ri => do
    let rt ← goIndex st.routes ri
    Except.ok { st with routes := st.routes.set ri { rt with schedules := schedules } }

/-- Fold `parseWayScheduleRecord` over the wayschedule.csv lines. -/
def parseWayScheduleLines (defs : List (List Char × MetromanSchedule)) :
    UnoState → List (List Char) → Except String UnoState
  | st, [] => Except.ok st
  | st, l :: rest =>
    match parseWayScheduleRecord defs st l with
    | Except.error e => Except.error e
    | Except.ok st2 => parseWayScheduleLines defs st2 rest

/-! ## Trip reconstruction engine (source part_005, per-route loop) -/

/-- Step-A heuristic segmentation state: flushed schedules (`acc`), the
current schedule's per-hop arrival→departure maps (`cur`, always
`stationIdx + 1` long), and the previous departure minute. -/
structure HeurState where
  acc : List (List (List (Int × Int)))
  cur : List (List (Int × Int))
  stationIdx : Nat
  lastDepart : Int
  deriving DecidableEq, Inhabited

/-- The heuristic start state: one empty hop map. -/
def initHeurState : HeurState := ⟨[], [[]], 0, 0⟩

/-- Step A, heuristic path: records are appended to the current hop's
map in file order; a departure minute smaller than the previous one
signals a wraparound — a full schedule (`cur` holds `nHops` maps) is
flushed and reset, otherwise the hop index advances; after the last
record the current schedule is appended.  `nHops` is
`len(route.Stations) - 1`; with no stations Go compares against `-1` and
Lean against `0`, and `cur` is never empty, so neither ever matches
(same behavior). -/
def readTimesHeuristic (nHops : Nat) : List (List Char) → HeurState →
    Except String (List (List (List (Int × Int))))
  | [], st => Except.ok st.acc
  | line :: rest, st => do
    let r := splitSep1 ',' line []
    let f0 ← goIndex r 0
    let f1 ← goIndex r 1
    let depart := parseIntD f0
    let arrive := parseIntD f1
    let st :=
      if depart < st.lastDepart then
        if st.cur.length = nHops then
          { st with acc := st.acc ++ [st.cur], stationIdx := 0, cur := [[]] }
        else
          { st with stationIdx := st.stationIdx + 1, cur := st.cur ++ [[]] }
      else st
    let m ← goIndex st.cur st.stationIdx
    let st :=
      { st with
        cur := st.cur.set st.stationIdx (mapInsert m arrive depart)
        lastDepart := depart }
    let st := if rest = [] then { st with acc := st.acc ++ [st.cur] } else st
    readTimesHeuristic nHops rest st

/-- Step A, fixed-count path, inner loop: `nHops` consecutive records,
each a singleton arrival→departure map, advancing the csv cursor. -/
def readTimesFixedHops (csvLines : List (List Char)) :
    Nat → Nat → Except String (List (List (Int × Int)) × Nat)
  | 0, idx => Except.ok ([], idx)
  | n + 1, idx => do
    let line ← goIndex csvLines idx
    let r := splitSep1 ',' line []
    let f0 ← goIndex r 0
    let f1 ← goIndex r 1
    let p ← readTimesFixedHops csvLines n (idx + 1)
    Except.ok ([(parseIntD f1, parseIntD f0)] :: p.1, p.2)

/-- Step A, fixed-count path, outer loop over the schedules. -/
def readTimesFixedScheds (csvLines : List (List Char)) (nHops : Nat) :
    Nat → Nat → Except String (List (List (List (Int × Int))) × Nat)
  | 0, idx => Except.ok ([], idx)
  | n + 1, idx => do
    let p ← readTimesFixedHops csvLines nHops idx
    let q ← readTimesFixedScheds csvLines nHops n p.2
    Except.ok (p.1 :: q.1, q.2)

/-- Step B, first hop: every record starts a new open trip with two
visits (origin at the departure minute, next station at the arrival
minute) and indexes it by its arrival minute. -/
def recLoopFirst (stations : List MetromanStation) :
    List (Int × Int) → List MetromanTrip → List (Int × Nat) →
    Except String (List MetromanTrip × List (Int × Nat))
  | [], trips, assigned => Except.ok (trips, assigned)
  | (arrive, depart) :: rest, trips, assigned => do
    let s0 ← goIndex stations 0
    let s1 ← goIndex stations 1
    let trips2 := trips ++ [⟨false, [⟨s0, depart⟩, ⟨s1, arrive⟩]⟩]
    recLoopFirst stations rest trips2 (mapInsert assigned arrive (trips2.length - 1))

/-- Step B, later hops: a record whose departure minute is indexed by a
trip from the previous hop — and whose `trip_ended` snapshot entry is
false — extends that trip with one visit and re-indexes it; otherwise a
new two-visit trip is seeded at the current station pair. -/
def recLoopLater (stations : List MetromanStation) (stationI : Nat)
    (tripEnded : List Bool) (last : List (Int × Nat)) :
    List (Int × Int) → List MetromanTrip → List (Int × Nat) →
    Except String (List MetromanTrip × List (Int × Nat))
  | [], trips, assigned => Except.ok (trips, assigned)
  | (arrive, depart) :: rest, trips, assigned => do
    let cont :=
      match mapLookup last depart with
      | some ti => if tripEnded.getD ti false then none else some ti
      | none => none
    match cont with
    | some ti => do
      let t ← goIndex trips ti
      let sNext ← goIndex stations (stationI + 1)
      let trips2 := trips.set ti
        { t with visits := t.visits ++ [⟨sNext, arrive⟩], tripEnded := false }
      recLoopLater stations stationI tripEnded last rest trips2
        (mapInsert assigned arrive ti)
    | none => do
      let sI ← goIndex stations stationI
      let sN ← goIndex stations (stationI + 1)
      let trips2 := trips ++ [⟨false, [⟨sI, depart⟩, ⟨sN, arrive⟩]⟩]
      recLoopLater stations stationI tripEnded last rest trips2
        (mapInsert assigned arrive (trips2.length - 1))

/-- Step B, one hop: look up this hop's arrival→departure map through
`StationToScheduleIndex` (missing key reads the zero value 0, and the
list index panics when out of range), snapshot each trip's ended flag,
then process the records.  The Go source then "tentatively" marks every
trip ended — but its `for _, trip := range trips` ranges by value, so
`trip.TripEnded = true` mutates a copy and the slice is unchanged; the
faithful translation of that loop is a no-op.  On a later hop the
continuation index is rotated out and the current one rebuilt fresh. -/
def hopStep (stations : List MetromanStation) (s2s : List (Nat × Nat))
    (schedAds : List (List (Int × Int))) (stationI : Nat)
    (state : List MetromanTrip × List (Int × Nat)) :
    Except String (List MetromanTrip × List (Int × Nat)) := do
  let sI ← goIndex stations stationI
  let thisAds ← goIndex schedAds (mapGetD s2s sI.index 0)
  let tripEnded := state.1.map (fun t => t.tripEnded)
  if stationI = 0 then
    recLoopFirst stations thisAds state.1 state.2
  else
    recLoopLater stations stationI tripEnded state.2 thisAds state.1 []

/-- Step B, all hops of one schedule in station order. -/
def hopLoop (stations : List MetromanStation) (s2s : List (Nat × Nat))
    (schedAds : List (List (Int × Int))) :
    List Nat → List MetromanTrip × List (Int × Nat) →
    Except String (List MetromanTrip × List (Int × Nat))
  | [], stt => Except.ok stt
  | i :: rest, stt =>
    match hopStep stations s2s schedAds i stt with
    | Except.error e => Except.error e
    | Except.ok stt2 => hopLoop stations s2s schedAds rest stt2

/-- Step B for one schedule: walk hops `0 .. len(stations) - 2`. -/
def reconstructSchedule (stations : List MetromanStation) (s2s : List (Nat × Nat))
    (schedAds : List (List (Int × Int))) : Except String (List MetromanTrip) := do
  let p ← hopLoop stations s2s schedAds (List.range (stations.length - 1)) ([], [])
  Except.ok p.1

/-- Step B over every schedule's 2D structure. -/
def reconstructTrips (stations : List MetromanStation) (s2s : List (Nat × Nat)) :
    List (List (List (Int × Int))) → Except String (List (List MetromanTrip))
  | [] => Except.ok []
  | s :: rest => do
    let t ← reconstructSchedule stations s2s s
    let more ← reconstructTrips stations s2s rest
    Except.ok (t :: more)

/-- The per-route timing pass: a missing `{prefix}/{code}.csv` is
non-fatal (the route is left untouched, keeping its zero trips);
otherwise step A segments the file — the fixed-count path exactly when
the line count equals `(stations-1) × schedules` (for an empty station
list Go's `-1 ×` count and Lean's `0` both never equal the at-least-one
line count) — and step B reconstructs the trips. -/
def processRoute (bundle : List (List Char × List Char)) (pfx : List Char)
    (rt : MetromanRoute) : Except String MetromanRoute :=
  match ReadFileFromZip bundle (pfx ++ '/' :: (rt.code ++ ".csv".data)) with
  | none => Except.ok rt
  | some contents =>
    let csvLines := splitSep2 '\r' '\n' contents []
    let sadsE : Except String (List (List (List (Int × Int)))) :=
      if csvLines.length = (rt.stations.length - 1) * rt.schedules.length then
        match readTimesFixedScheds csvLines (rt.stations.length - 1)
          rt.schedules.length 0 with
        | Except.error e => Except.error e
        | Except.ok p => Except.ok p.1
      else
        readTimesHeuristic (rt.stations.length - 1) csvLines initHeurState
    match sadsE with
    | Except.error e => Except.error e
    | Except.ok sads =>
      match reconstructTrips rt.stations rt.stationToScheduleIndex sads with
      | Except.error e => Except.error e
      | Except.ok trips => Except.ok { rt with trips := trips }

/-- The per-route timing pass over the routes arena, in order. -/
def processRoutes (bundle : List (List Char × List Char)) (pfx : List Char) :
    List MetromanRoute → Except String (List MetromanRoute)
  | [] => Except.ok []
  | r :: rest => do
    let r2 ← processRoute bundle pfx r
    let rest2 ← processRoutes bundle pfx rest
    Except.ok (r2 :: rest2)

/-! ## Shape tables and city assembly (source part_005, steps 8–9) -/

/-- One record of path_latlng.csv: a lat,lng pair corrected through the
GCJ-02 → WGS-84 transform. -/
def parsePathCoordLines (gd : ℚ → ℚ → ℚ × ℚ) :
    List (List Char) → Except String (List Coordinate)
  | [] => Except.ok []
  | line :: rest => do
    let r := splitSep1 ',' line []
    let f0 ← goIndex r 0
    let f1 ← goIndex r 1
    let more ← parsePathCoordLines gd rest
    Except.ok (GCJ02ToWGS84 gd ⟨parseFloatD f0, parseFloatD f1⟩ :: more)

/-- One record of path_rail.csv:
`line_code,stn_a,stn_b,lower,upper` slices the global coordinate list at
`[lower : upper+1]` into the line's `StationPaths` under the key
`stn_a_stn_b` (the Go exists-check followed by assignment nets to an
overwrite).  An unknown line code is a nil pointer panic. -/
def parsePathRailRecord (coords : List Coordinate) (lines : List MetromanLine)
    (linesByCode : List (List Char × Nat)) (line : List Char) :
    Except String (List MetromanLine) := do
  let r := splitSep1 ',' line []
  let f3 ← goIndex r 3
  let f4 ← goIndex r 4
  let lower := parseIntD f3
  let upper := parseIntD f4
  let f0 ← goIndex r 0
  match mapLookup linesByCode f0 with
  | none => Except.error "panic: nil pointer dereference"
  | some li => do
    let ln ← goIndex lines li
    let f1 ← goIndex r 1
    let f2 ← goIndex r 2
    let pathCode := f1 ++ '_' :: f2
    let seg ← goSliceInt coords lower (upper + 1)
    Except.ok (lines.set li { ln with stationPaths := mapInsert ln.stationPaths pathCode seg })

/-- Fold `parsePathRailRecord` over the path_rail.csv lines. -/
def parsePathRailLines (coords : List Coordinate)
    (linesByCode : List (List Char × Nat)) :
    List MetromanLine → List (List Char) → Except String (List MetromanLine)
  | lines, [] => Except.ok lines
  | lines, l :: rest =>
    match parsePathRailRecord coords lines linesByCode l with
    | Except.error e => Except.error e
    | Except.ok lines2 => parsePathRailLines coords linesByCode lines2 rest

/-- Lift the typed not-found condition of a table lookup into the load
error, the Go `could not open ...` returns. -/
def require {α : Type} (o : Option α) (msg : String) : Except String α :=
  match o with
  | some x => Except.ok x
  | none => Except.error msg

/-- Function `LoadCity` from the source: reads the required tables in
order — uno.csv, line.csv, way.csv, fare.csv, holiday.csv, schedule.csv,
wayschedule.csv, then the optional per-route timing tables, then
path_latlng.csv and path_rail.csv — failing the whole load when a
required table is absent (the Go `could not open ...` error returns) or
when parsing panics, and assembling the `MetromanCity`. -/
def LoadCity (gd : ℚ → ℚ → ℚ × ℚ) (zipPfx : List Char)
    (bundle : List (List Char × List Char)) : Except String MetromanCity := do
  let unoCsv ← require (ReadFileFromZip bundle (zipPfx ++ "/uno.csv".data))
    "could not open uno.csv"
  let st1 ← parseUnoLines gd emptyUnoState (splitSep2 '\r' '\n' unoCsv [])
  let lineCsv ← require (ReadFileFromZip bundle (zipPfx ++ "/line.csv".data))
    "could not open line.csv"
  let st2 ← parseLineLines st1 (splitSep2 '\r' '\n' lineCsv [])
  let wayCsv ← require (ReadFileFromZip bundle (zipPfx ++ "/way.csv".data))
    "could not open way.csv"
  let st3 ← parseWayLines st2 [] (splitSep2 '\r' '\n' wayCsv [])
  let fareCsv ← require (ReadFileFromZip bundle (zipPfx ++ "/fare.csv".data))
    "could not open fare.csv"
  let fares ← parseFareLines bundle zipPfx st3 ([], []) (splitSep2 '\r' '\n' fareCsv [])
  let holidayCsv ← require (ReadFileFromZip bundle (zipPfx ++ "/holiday.csv".data))
    "could not open holiday.csv"
  let holidays ← parseHolidayLines [] (splitSep2 '\r' '\n' holidayCsv [])
  let scheduleCsv ← require (ReadFileFromZip bundle (zipPfx ++ "/schedule.csv".data))
    "could not open schedule.csv"
  let defs ← parseScheduleLines [] (splitSep2 '\r' '\n' scheduleCsv [])
  let wayScheduleCsv ← require (ReadFileFromZip bundle (zipPfx ++ "/wayschedule.csv".data))
    "could not open wayschedule.csv"
  let st4 ← parseWayScheduleLines defs st3 (splitSep2 '\r' '\n' wayScheduleCsv [])
  let routes2 ← processRoutes bundle zipPfx st4.routes
  let pathLatlngCsv ← require (ReadFileFromZip bundle (zipPfx ++ "/path_latlng.csv".data))
    "could not open path_latlng.csv"
  let coords ← parsePathCoordLines gd (splitSep2 '\r' '\n' pathLatlngCsv [])
  let pathRailCsv ← require (ReadFileFromZip bundle (zipPfx ++ "/path_rail.csv".data))
    "could not open path_rail.csv"
  let lines2 ← parsePathRailLines coords st4.linesByCode st4.lines
    (splitSep2 '\r' '\n' pathRailCsv [])
  Except.ok
    { lines := lines2
      routes := routes2
      stations := st4.stations
      stationsByName := st4.stationsByName
      stationsByCode := st4.stationsByCode
      fareMatrices := fares.1
      fareMatrixStations := fares.2
      holidays := holidays
      scheduleDef := defs }

/-! ## Concrete fixtures for witnesses and counterexamples -/

/-- A zero offset function for concrete evaluations (the claims under
evaluation never depend on the offset's value). -/
def delta0 : ℚ → ℚ → ℚ × ℚ := fun _ _ => (0, 0)

/-- A two-station, one-line, one-route uno.csv. -/
def wUno : List Char :=
  ("ST0<,>MS<,>en0<,>sn0<,>tn0<,>jn0<,>esn0<,>shn0<,>39.0<,>116.0<,>1<,>2\r\n" ++
   "ST1<,>MS<,>en1<,>sn1<,>tn1<,>jn1<,>esn1<,>shn1<,>39.1<,>116.1<,>3<,>4\r\n" ++
   "L1<,>ML<,>len<,>lsn<,>ltn<,>ljn<,>x<,>lshn<,>a<,>b<,>c<,>d<,>#FF0000\r\n" ++
   "R1<,>MW<,>ren<,>rsn<,>rtn<,>rjn").data

/-- A complete bundle with every required table but no per-route timing
table for route R1. -/
def wBundle : List (List Char × List Char) :=
  [ ("v/uno.csv".data, wUno)
  , ("v/line.csv".data, "L1,0,1".data)
  , ("v/way.csv".data, "R1,0,x,0,1".data)
  , ("v/fare.csv".data, "F1,R1,3,,".data)
  , ("v/holiday.csv".data, "20240101".data)
  , ("v/schedule.csv".data, "S1<,>1<,>1<,>1<,>1<,>1<,>0<,>0<,>x<,>1".data)
  , ("v/wayschedule.csv".data, "R1,x,S1".data)
  , ("v/path_latlng.csv".data, "39.5,116.5".data)
  , ("v/path_rail.csv".data, "L1,ST0,ST1,0,0".data) ]

/-- The same bundle with the timing table `[(480,485)]` for route R1. -/
def wBundle2 : List (List Char × List Char) :=
  wBundle ++ [("v/R1.csv".data, "480,485".data)]

/-- The city loaded from the bundle without the timing table. -/
def wCity0 : MetromanCity := (LoadCity delta0 "v".data wBundle).toOption.getD default

/-- The city loaded from the bundle with the timing table. -/
def wCity2 : MetromanCity := (LoadCity delta0 "v".data wBundle2).toOption.getD default

/-- A bare station fixture (coordinates 0 so that every field is a
literal). -/
def sA : MetromanStation :=
  { code := "ST0".data, index := 0, englishName := [], simplifiedName := [],
    traditionalName := [], japaneseName := [], englishShortName := [],
    shortName := [], lat := 0, lng := 0, subwayMapX := 0, subwayMapY := 0 }

/-- Second station fixture. -/
def sB : MetromanStation := { sA with code := "ST1".data, index := 1 }

/-- Third station fixture. -/
def sC : MetromanStation := { sA with code := "ST2".data, index := 2 }

/-- A single weekday schedule fixture. -/
def schedS : MetromanSchedule :=
  { code := "S1".data, daysOfWeek := [1, 1, 1, 1, 1, 0, 0], holidays := true }

/-- The synthetic 2-station route of the spec's trip-reconstruction test
case, with its one assigned schedule and the schedule-position lookup
way.csv would build (station 0, terminal excluded, at rank 0). -/
def rAB : MetromanRoute :=
  { code := "R1".data, englishName := [], simplifiedName := [],
    traditionalName := [], japaneseName := [], stations := [sA, sB],
    stationToScheduleIndex := [(0, 0)], lineIdx := some 0, idxWithinLine := 0,
    schedules := [some schedS], trips := [] }

/-- A 3-station variant of `rAB` (lookup ranks 0 and 1). -/
def rABC : MetromanRoute :=
  { rAB with stations := [sA, sB, sC], stationToScheduleIndex := [(0, 0), (1, 1)] }

/-- A bundle holding only the timing table `[(480,485)]` for R1. -/
def tBundle : List (List Char × List Char) :=
  [("v/R1.csv".data, "480,485".data)]

/-- A bundle holding only the timing table `[(480,485),(600,605)]` for
R1: the hop-1 record departs at 600, which matches no open trip arrival,
so the hop-0 trip is not extended during hop 1. -/
def t3Bundle : List (List Char × List Char) :=
  [("v/R1.csv".data, ("480,485\r\n600,605").data)]

/-- The required tables of one city load, per the source's fatal
`could not open ...` paths. -/
def requiredTables (pfx : List Char) : List (List Char) :=
  [ pfx ++ "/uno.csv".data
  , pfx ++ "/line.csv".data
  , pfx ++ "/way.csv".data
  , pfx ++ "/fare.csv".data
  , pfx ++ "/holiday.csv".data
  , pfx ++ "/schedule.csv".data
  , pfx ++ "/wayschedule.csv".data
  , pfx ++ "/path_latlng.csv".data
  , pfx ++ "/path_rail.csv".data ]

/-- Whether a uno.csv record line carries the station type tag `MS` in
its second field. -/
def isMSLine (l : List Char) : Bool :=
  decide ((splitSep3 '<' ',' '>' l []).get? 1 = some ("MS".data))

/-- The identity code in the first field of a uno.csv record line. -/
def unoRecordCode (l : List Char) : List Char :=
  ((splitSep3 '<' ',' '>' l []).get? 0).getD []

/-- The station-indexing invariant of the loader state: the running
counter equals the number of stations and every station's assigned index
is its position. -/
def StationsIndexed (st : UnoState) : Prop :=
  st.stationIndex = st.stations.length ∧
  ∀ (i : Nat) (s : MetromanStation), st.stations.get? i = some s → s.index = i

/-! ## Helper lemmas for the codec -/

theorem parseChar_neg_iff (b : Nat) : ParseChar b < 0 ↔ ParseChar b = -1 := by
  unfold ParseChar
  split_ifs <;> (try simp) <;> omega

theorem parseGroup_eq_none_iff (cs : List Char) :
    parseGroup cs = none ↔ ∃ b ∈ cs, ParseChar b.toNat = -1 := by
  induction cs with
  | nil => simp [parseGroup]
  | cons b rest ih =>
    unfold parseGroup
    by_cases hb : ParseChar b.toNat < 0
    · rw [if_pos hb]
      exact iff_of_true rfl ⟨b, List.mem_cons_self b rest, (parseChar_neg_iff _).mp hb⟩
    · rw [if_neg hb, Option.map_eq_none', ih]
      constructor
      · rintro ⟨x, hx, hbad⟩
        exact ⟨x, List.mem_cons_of_mem _ hx, hbad⟩
      · rintro ⟨x, hx, hbad⟩
        rcases List.mem_cons.mp hx with h | h
        · subst h
          exact absurd ((parseChar_neg_iff _).mpr hbad) hb
        · exact ⟨x, h, hbad⟩

theorem parseGroup_isSome_of_all_good (cs : List Char)
    (h : ∀ b ∈ cs, ParseChar b.toNat ≠ -1) : ∃ v, parseGroup cs = some v := by
  cases hpg : parseGroup cs with
  | none =>
    rcases (parseGroup_eq_none_iff cs).mp hpg with ⟨b, hmem, hbad⟩
    exact absurd hbad (h b hmem)
  | some v => exact ⟨v, rfl⟩

theorem take13_decomp (l : List Char) :
    (l.take 13).drop 1 = ((l.take 13).drop 1).take 6 ++ ((l.take 13).drop 7).take 6 := by
  have h1 : ((l.take 13).drop 1).drop 6 = (l.take 13).drop 7 := by
    rw [List.drop_drop]
  conv_lhs => rw [← List.take_append_drop 6 ((l.take 13).drop 1)]
  rw [h1]
  congr 1
  have hlen : ((l.take 13).drop 7).length ≤ 6 := by
    simp only [List.length_drop, List.length_take]
    omega
  rw [List.take_of_length_le hlen]

theorem take8_decomp (l : List Char) :
    l.take 8 = (l.take 8).take 4 ++ ((l.take 8).drop 4).take 4 := by
  conv_lhs => rw [← List.take_append_drop 4 (l.take 8)]
  congr 1
  have hlen : ((l.take 8).drop 4).length ≤ 4 := by
    simp only [List.length_drop, List.length_take]
    omega
  rw [List.take_of_length_le hlen]

theorem parse13Block_eq_none_of_bad (l : List Char)
    (h : ∃ b ∈ (l.take 13).drop 1, ParseChar b.toNat = -1) :
    Parse13Block (l.take 13) = none := by
  rcases h with ⟨b, hmem, hbad⟩
  rw [take13_decomp] at hmem
  unfold Parse13Block
  rcases List.mem_append.mp hmem with h1 | h2
  · have hg : parseGroup (((l.take 13).drop 1).take 6) = none :=
      (parseGroup_eq_none_iff _).mpr ⟨b, h1, hbad⟩
    rw [hg]
  · have hg : parseGroup (((l.take 13).drop 7).take 6) = none :=
      (parseGroup_eq_none_iff _).mpr ⟨b, h2, hbad⟩
    rw [hg]
    cases parseGroup (((l.take 13).drop 1).take 6) <;> rfl

theorem parse13Block_isSome_of_good (l : List Char)
    (h : ∀ b ∈ (l.take 13).drop 1, ParseChar b.toNat ≠ -1) :
    ∃ p, Parse13Block (l.take 13) = some p := by
  have hd := take13_decomp l
  have h1 : ∀ b ∈ ((l.take 13).drop 1).take 6, ParseChar b.toNat ≠ -1 := by
    intro b hb
    exact h b (by rw [hd]; exact List.mem_append.mpr (Or.inl hb))
  have h2 : ∀ b ∈ ((l.take 13).drop 7).take 6, ParseChar b.toNat ≠ -1 := by
    intro b hb
    exact h b (by rw [hd]; exact List.mem_append.mpr (Or.inr hb))
  rcases parseGroup_isSome_of_all_good _ h1 with ⟨x, hx⟩
  rcases parseGroup_isSome_of_all_good _ h2 with ⟨y, hy⟩
  refine ⟨(x, y), ?_⟩
  unfold Parse13Block
  rw [hx, hy]

theorem parse8Block_eq_none_of_bad (l : List Char) (cur : Int × Int)
    (h : ∃ b ∈ l.take 8, ParseChar b.toNat = -1) :
    Parse8Block (l.take 8) cur = none := by
  rcases h with ⟨b, hmem, hbad⟩
  rw [take8_decomp] at hmem
  unfold Parse8Block
  rcases List.mem_append.mp hmem with h1 | h2
  · have hg : parseGroup ((l.take 8).take 4) = none :=
      (parseGroup_eq_none_iff _).mpr ⟨b, h1, hbad⟩
    rw [hg]
  · have hg : parseGroup (((l.take 8).drop 4).take 4) = none :=
      (parseGroup_eq_none_iff _).mpr ⟨b, h2, hbad⟩
    rw [hg]
    cases parseGroup ((l.take 8).take 4) <;> rfl

theorem parse8Block_isSome_of_good (l : List Char) (cur : Int × Int)
    (h : ∀ b ∈ l.take 8, ParseChar b.toNat ≠ -1) :
    ∃ p, Parse8Block (l.take 8) cur = some p := by
  have hd := take8_decomp l
  have h1 : ∀ b ∈ (l.take 8).take 4, ParseChar b.toNat ≠ -1 := by
    intro b hb
    exact h b (by rw [hd]; exact List.mem_append.mpr (Or.inl hb))
  have h2 : ∀ b ∈ ((l.take 8).drop 4).take 4, ParseChar b.toNat ≠ -1 := by
    intro b hb
    exact h b (by rw [hd]; exact List.mem_append.mpr (Or.inr hb))
  rcases parseGroup_isSome_of_all_good _ h1 with ⟨x, hx⟩
  rcases parseGroup_isSome_of_all_good _ h2 with ⟨y, hy⟩
  exact ⟨_, by unfold Parse8Block; rw [hx, hy]⟩

theorem segFails_decodeLoopF {data : List Char} (h : SegFails data) :
    ∀ cur fuel, data.length ≤ fuel → decodeLoopF fuel data cur = none := by
  induction h with
  | absShort c rest hsel hshort =>
    intro cur fuel hfuel
    match fuel with
    | 0 => simp at hfuel
    | f + 1 =>
      unfold decodeLoopF
      rw [if_pos hsel, if_pos hshort]
  | absBad c rest hsel hlong hbad =>
    intro cur fuel hfuel
    match fuel with
    | 0 => simp at hfuel
    | f + 1 =>
      unfold decodeLoopF
      rw [if_pos hsel, if_neg hlong, parse13Block_eq_none_of_bad _ hbad]
  | absStep c rest hsel hlong hgood _ ih =>
    intro cur fuel hfuel
    match fuel with
    | 0 => simp at hfuel
    | f + 1 =>
      unfold decodeLoopF
      rw [if_pos hsel, if_neg hlong]
      rcases parse13Block_isSome_of_good (c :: rest) hgood with ⟨p, hp⟩
      have hih : decodeLoopF f ((c :: rest).drop 13) p = none := by
        refine ih p f ?_
        simp only [List.length_drop] at *
        omega
      simp only [hp, hih, Option.map_none']
  | semi rest _ ih =>
    intro cur fuel hfuel
    match fuel with
    | 0 => simp at hfuel
    | f + 1 =>
      unfold decodeLoopF
      rw [if_neg (by decide), if_pos rfl]
      refine ih (0, 0) f ?_
      simp only [List.length_cons] at hfuel
      omega
  | deltaShort c rest hsel hsemi hshort =>
    intro cur fuel hfuel
    match fuel with
    | 0 => simp at hfuel
    | f + 1 =>
      unfold decodeLoopF
      rw [if_neg hsel, if_neg hsemi, if_pos hshort]
  | deltaBad c rest hsel hsemi hlong hbad =>
    intro cur fuel hfuel
    match fuel with
    | 0 => simp at hfuel
    | f + 1 =>
      unfold decodeLoopF
      rw [if_neg hsel, if_neg hsemi, if_neg hlong,
        parse8Block_eq_none_of_bad _ cur hbad]
  | deltaStep c rest hsel hsemi hlong hgood _ ih =>
    intro cur fuel hfuel
    match fuel with
    | 0 => simp at hfuel
    | f + 1 =>
      unfold decodeLoopF
      rw [if_neg hsel, if_neg hsemi, if_neg hlong]
      rcases parse8Block_isSome_of_good (c :: rest) cur hgood with ⟨p, hp⟩
      have hih : decodeLoopF f ((c :: rest).drop 8) p = none := by
        refine ih p f ?_
        simp only [List.length_drop] at *
        omega
      simp only [hp, hih, Option.map_none']

theorem segFails_decodeLoop {data : List Char} (h : SegFails data) (cur : Int × Int) :
    decodeLoop data cur = none :=
  segFails_decodeLoopF h cur data.length le_rfl

theorem foldl_append_if (l : List GeoDiff) (acc : List GeoDiff) :
    l.foldl
      (fun acc elem =>
        if elem.points ≠ [] then acc ++ [elem] else acc) acc =
    acc ++ l.filter (fun g => decide (g.points ≠ [])) := by
  induction l generalizing acc with
  | nil => simp
  | cons x xs ih =>
    simp only [List.foldl_cons, List.filter_cons]
    by_cases hx : x.points ≠ []
    · rw [if_pos hx, ih]
      simp [hx]
    · rw [if_neg hx, ih]
      simp [hx]

theorem decodeCombined_eq_filter (encoded : List Char) :
    DecodeCombinedGeoDiff encoded =
      ((splitSep1 '|' encoded []).map DecodeGeoDiff).filter
        (fun g => decide (g.points ≠ [])) := by
  unfold DecodeCombinedGeoDiff
  rw [← List.foldl_map (f := DecodeGeoDiff)
    (g := fun acc g => if g.points ≠ [] then acc ++ [g] else acc)]
  rw [foldl_append_if]
  rfl

/-! ## Claim theorems: value codec, geometry codec, coordinate transform -/

set_option maxRecDepth 4096 in
/-- C7: over the 256 byte values, `ParseChar` maps exactly the 64 alphabet
characters `A`–`Z`, `a`–`z`, `0`–`9`, `+`, `/` to their rank 0..63 in that
order (a bijection onto 0..63, since the alphabet list has 64 distinct
entries), and every byte outside the alphabet to the `-1` invalid-symbol
result. -/
theorem parseChar_bijection :
    (∀ b : Fin 256,
      (b.val ∈ alphabet64 → ParseChar b.val = (alphabet64.indexOf b.val : Int)) ∧
      (b.val ∉ alphabet64 → ParseChar b.val = -1)) ∧
    alphabet64.Nodup ∧ alphabet64.length = 64 := by decide

/-- Witness for C7 at bytes 65 (`A`, in the alphabet) and 64 (`@`, not in
the alphabet). -/
theorem parseChar_bijection_witness :
    ((65 : Nat) ∈ alphabet64 ∧ ParseChar 65 = (alphabet64.indexOf 65 : Int)) ∧
    ((64 : Nat) ∉ alphabet64 ∧ ParseChar 64 = -1) :=
  ⟨⟨by decide, (parseChar_bijection.1 ⟨65, by omega⟩).1 (by decide)⟩,
   ⟨by decide, (parseChar_bijection.1 ⟨64, by omega⟩).2 (by decide)⟩⟩

/-- C3, counterexample: the claim says a raw delta of `2^23` folds to `0`
and `2^23 + 1` folds to `2^23 - 1`.  The source folds only deltas strictly
greater than `2^23`, so the delta block `AAAg` (value exactly `2^23`)
is added unfolded as `8388608 ≠ 0`, and the block `BAAg` (value
`2^23 + 1`) folds to `2^23 - (2^23 + 1) = -1 ≠ 8388607`. -/
theorem parse8Block_fold_counterexample :
    Parse8Block "AAAgAAAA".data (0, 0) = some (8388608, 0) ∧ (8388608 : Int) ≠ 0 ∧
    Parse8Block "BAAgAAAA".data (0, 0) = some (-1, 0) ∧ (-1 : Int) ≠ 8388607 :=
  ⟨by decide, by decide, by decide, by decide⟩

/-- C3, amended: a raw delta strictly greater than `2^23` is folded to
`2^23 − delta` before being added to the running point, so `2^23 + 1`
folds to `-1`; a raw delta exactly equal to `2^23` is not folded and is
added as `2^23`. -/
theorem parse8Block_fold_amended :
    (∀ cur : Int × Int, Parse8Block "AAAgAAAA".data cur = some (cur.1 + 8388608, cur.2)) ∧
    (∀ cur : Int × Int, Parse8Block "BAAgAAAA".data cur = some (cur.1 + (-1), cur.2)) ∧
    ∀ (block : List Char) (cur : Int × Int) (dx dy : Int),
      parseGroup (block.take 4) = some dx →
      parseGroup ((block.drop 4).take 4) = some dy →
      MAX_DELTA_VALUE < dx → MAX_DELTA_VALUE < dy →
      Parse8Block block cur = some (cur.1 + (MAX_DELTA_VALUE - dx), cur.2 + (MAX_DELTA_VALUE - dy)) := by
  refine ⟨fun cur => ?_, fun cur => ?_, fun block cur dx dy hx hy hdx hdy => ?_⟩
  · show Parse8Block ['A', 'A', 'A', 'g', 'A', 'A', 'A', 'A'] cur = _
    simp [Parse8Block, parseGroup, ParseChar, MAX_DELTA_VALUE]
  · show Parse8Block ['B', 'A', 'A', 'g', 'A', 'A', 'A', 'A'] cur = _
    simp [Parse8Block, parseGroup, ParseChar, MAX_DELTA_VALUE]
  · unfold Parse8Block
    rw [hx, hy]
    simp only [gt_iff_lt, if_pos hdx, if_pos hdy]

/-- Witness for C3's amended theorem: a block whose two deltas are both
`2^23 + 1` moves the origin point to `(-1, -1)`. -/
theorem parse8Block_fold_amended_witness :
    Parse8Block "BAAgBAAg".data (0, 0) = some (0 + (MAX_DELTA_VALUE - 8388609), 0 + (MAX_DELTA_VALUE - 8388609)) :=
  parse8Block_fold_amended.2.2 "BAAgBAAg".data (0, 0) 8388609 8388609
    (by decide) (by decide) (by decide) (by decide)

/-- C4, counterexample: the claim says a segment whose first character is
not a recognized kind selector fails to decode with an error.  The source
never checks `GetGeoType`'s `-1` result: the segment `XAAAAAAAA` (selector
`X`, one valid delta block) decodes successfully, emitting one point with
the out-of-range kind `-1`. -/
theorem decodeGeoDiff_unknown_selector_counterexample :
    GetGeoType 'X' = -1 ∧
    (DecodeGeoDiff "XAAAAAAAA".data).points ≠ [] ∧
    (DecodeGeoDiff "XAAAAAAAA".data).type = -1 := by
  have hloop : decodeLoop "AAAAAAAA".data (0, 0) = some [(0, 0)] := by decide
  have hdgd : DecodeGeoDiff "XAAAAAAAA".data =
      { type := GetGeoType 'X',
        points := [((0 : Int), (0 : Int))].map (fun p => ((p.1 : ℚ) / 100, (p.2 : ℚ) / 100)) } := by
    show (match decodeLoop "AAAAAAAA".data (0, 0) with
      | none => ({ type := 0, points := [] } : GeoDiff)
      | some pts =>
        { type := GetGeoType 'X'
          points := pts.map (fun (p : Int × Int) => ((p.1 : ℚ) / 100, (p.2 : ℚ) / 100)) }) = _
    rw [hloop]
  rw [hdgd]
  refine ⟨by decide, by simp, by decide⟩

/-- C4, amended: an unrecognized kind selector is not an error: the
remainder of the segment is still decoded, and when it decodes to a point
list the result carries those points with the sentinel kind `-1`. -/
theorem decodeGeoDiff_unknown_selector_amended (c : Char) (body : List Char)
    (pts : List (Int × Int))
    (hc : GetGeoType c = -1) (hbody : decodeLoop body (0, 0) = some pts) :
    (DecodeGeoDiff (c :: body)).type = -1 ∧
    (DecodeGeoDiff (c :: body)).points =
      pts.map (fun p => ((p.1 : ℚ) / 100, (p.2 : ℚ) / 100)) := by
  have hdgd : DecodeGeoDiff (c :: body) =
      { type := GetGeoType c,
        points := pts.map (fun p => ((p.1 : ℚ) / 100, (p.2 : ℚ) / 100)) } := by
    show (match decodeLoop body (0, 0) with
      | none => ({ type := 0, points := [] } : GeoDiff)
      | some pts =>
        { type := GetGeoType c
          points := pts.map (fun (p : Int × Int) => ((p.1 : ℚ) / 100, (p.2 : ℚ) / 100)) }) = _
    rw [hbody]
  rw [hdgd, hc]
  exact ⟨rfl, rfl⟩

/-- Witness for C4's amended theorem at the segment `XAAAAAAAA`. -/
theorem decodeGeoDiff_unknown_selector_amended_witness :
    (DecodeGeoDiff ('X' :: "AAAAAAAA".data)).type = -1 ∧
    (DecodeGeoDiff ('X' :: "AAAAAAAA".data)).points =
      [((0 : Int), (0 : Int))].map (fun p => ((p.1 : ℚ) / 100, (p.2 : ℚ) / 100)) :=
  decodeGeoDiff_unknown_selector_amended 'X' "AAAAAAAA".data [(0, 0)]
    (by decide) (by decide)

/-- C5: a segment whose body fails block decoding — at some reachable
position fewer characters remain than the current block requires (13
absolute, 8 delta) or a block value character is outside the alphabet —
decodes to the zero `GeoDiff` (empty point list, the points decoded so far
discarded; `DecodeGeoDiff` is a total function, so no error halts the
caller), and the composite decoder is exactly: split on `|`, decode each
segment independently, keep only the nonempty results in input order. -/
theorem decodeGeoDiff_failure_empty (encoded : List Char) :
    (∀ (c : Char) (body : List Char), encoded = c :: body → SegFails body →
      DecodeGeoDiff encoded = { type := 0, points := [] }) ∧
    DecodeCombinedGeoDiff encoded =
      ((splitSep1 '|' encoded []).map DecodeGeoDiff).filter
        (fun g => decide (g.points ≠ [])) := by
  refine ⟨fun c body henc hfail => ?_, decodeCombined_eq_filter encoded⟩
  subst henc
  show (match decodeLoop body (0, 0) with
    | none => ({ type := 0, points := [] } : GeoDiff)
    | some pts =>
      { type := GetGeoType c
        points := pts.map (fun (p : Int × Int) => ((p.1 : ℚ) / 100, (p.2 : ℚ) / 100)) }) = _
  rw [segFails_decodeLoop hfail (0, 0)]

/-- Witness for C5 at the segment `-AAAA`: a `-` (line) selector followed
by a 4-character body, which is shorter than the 8 characters its delta
block requires. -/
theorem decodeGeoDiff_failure_empty_witness :
    DecodeGeoDiff "-AAAA".data = { type := 0, points := [] } :=
  (decodeGeoDiff_failure_empty "-AAAA".data).1 '-' "AAAA".data rfl
    (SegFails.deltaShort 'A' "AAA".data (by decide) (by decide) (by decide))

/-- C6: a coordinate outside the China bounding box (longitude outside
[72.004, 137.8347] or latitude outside [0.8293, 55.8271]) is returned
unchanged by both the GCJ-02 → WGS-84 and the WGS-84 → GCJ-02
conversion, for every offset function. -/
theorem gcj02_out_of_china_unchanged (delta : ℚ → ℚ → ℚ × ℚ) (coord : Coordinate)
    (h : OutOfChina coord.lng coord.lat = true) :
    GCJ02ToWGS84 delta coord = coord ∧ GCJ02FromWGS84 delta coord = coord := by
  unfold GCJ02ToWGS84 GCJ02FromWGS84
  rw [h]
  simp

/-- Witness for C6 at the coordinate (0, 0), which is out of China. -/
theorem gcj02_out_of_china_unchanged_witness :
    OutOfChina (0 : ℚ) 0 = true ∧
    GCJ02ToWGS84 (fun _ _ => (1, 1)) ⟨0, 0⟩ = ⟨0, 0⟩ :=
  ⟨by unfold OutOfChina; norm_num,
   (gcj02_out_of_china_unchanged (fun _ _ => (1, 1)) ⟨0, 0⟩
     (by unfold OutOfChina; norm_num)).1⟩

/-! ## Helper lemmas for the loader -/

theorem exceptBind_ok {α β : Type} {a : Except String α} {f : α → Except String β}
    {b : β} (h : a >>= f = Except.ok b) : ∃ x, a = Except.ok x ∧ f x = Except.ok b := by
  cases a with
  | error e => simp [Bind.bind, Except.bind] at h
  | ok x => exact ⟨x, rfl, by simpa [Bind.bind, Except.bind] using h⟩

theorem require_ok {α : Type} {o : Option α} {msg : String} {x : α}
    (h : require o msg = Except.ok x) : o = some x := by
  cases o with
  | none => simp [require] at h
  | some y =>
    simp only [require, Except.ok.injEq] at h
    rw [h]

theorem goIndex_mem {α : Type} {xs : List α} {i : Nat} {v : α}
    (h : goIndex xs i = Except.ok v) : v ∈ xs := by
  unfold goIndex at h
  cases hg : xs.get? i with
  | none => rw [hg] at h; exact absurd h (by simp)
  | some w =>
    rw [hg] at h
    cases h
    exact List.get?_mem hg

theorem goIndexInt_mem {α : Type} {xs : List α} {i : Int} {v : α}
    (h : goIndexInt xs i = Except.ok v) : v ∈ xs := by
  unfold goIndexInt at h
  split at h
  · exact goIndex_mem h
  · exact absurd h (by simp)

/-! ## Claim theorems: trip reconstruction at concrete inputs -/

/-- C2: for the synthetic 2-station route with one assigned schedule and
the timing table `[(480,485)]`, the reconstruction takes the fixed-count
path and produces exactly one trip with exactly two visits: the first
station at minute 480 and the second at minute 485. -/
theorem trip_reconstruction_two_station :
    processRoute tBundle "v".data rAB =
      Except.ok { rAB with trips := [[⟨false, [⟨sA, 480⟩, ⟨sB, 485⟩]⟩]] } := rfl

/-- C1, evaluation at the failing input: a 3-station route whose timing
table is `[(480,485),(600,605)]`.  The hop-0 trip (visits 480, 485) is
not extended during hop 1 — the hop-1 record departs at 600, matching no
indexed arrival — so per the claim its ended flag should be set and stay
set.  The Go marking loop ranges over the trips slice by value, so the
flag is never actually set: after the load every trip still carries
`TripEnded = false`. -/
theorem trip_ended_flag_never_set :
    ∃ r, processRoute t3Bundle "v".data rABC = Except.ok r ∧
      r.trips = [[⟨false, [⟨sA, 480⟩, ⟨sB, 485⟩]⟩,
                  ⟨false, [⟨sB, 600⟩, ⟨sC, 605⟩]⟩]] ∧
      ∀ ts ∈ r.trips, ∀ t ∈ ts, t.tripEnded = false := by
  refine ⟨_, rfl, rfl, ?_⟩
  intro ts hts t ht
  simp only [List.mem_singleton] at hts
  subst hts
  rcases ht with _ | ⟨_, h⟩
  · rfl
  · rcases h with _ | ⟨_, h⟩
    · rfl
    · cases h

theorem goIndex_ok_iff {α : Type} {xs : List α} {i : Nat} {v : α} :
    goIndex xs i = Except.ok v ↔ xs.get? i = some v := by
  unfold goIndex
  cases xs.get? i <;> simp

theorem parseLineRecord_pres {st : UnoState} {l : List Char} {st2 : UnoState}
    (h : parseLineRecord st l = Except.ok st2) :
    st2.stations = st.stations ∧ st2.routes = st.routes := by
  simp only [parseLineRecord] at h
  rcases exceptBind_ok h with ⟨f0, _, h⟩
  rcases exceptBind_ok h with ⟨rest, _, h⟩
  split at h
  · cases h
    exact ⟨rfl, rfl⟩
  · split at h
    · exact absurd h (by simp)
    · rcases exceptBind_ok h with ⟨ln, _, h⟩
      rcases exceptBind_ok h with ⟨newSts, _, h⟩
      cases h
      exact ⟨rfl, rfl⟩

theorem parseLineLines_pres : ∀ {ls : List (List Char)} {st st2 : UnoState},
    parseLineLines st ls = Except.ok st2 →
    st2.stations = st.stations ∧ st2.routes = st.routes := by
  intro ls
  induction ls with
  | nil =>
    intro st st2 h
    cases h
    exact ⟨rfl, rfl⟩
  | cons l rest ih =>
    intro st st2 h
    unfold parseLineLines at h
    split at h
    · exact absurd h (by simp)
    · rename_i st1 heq
      rcases parseLineRecord_pres heq with ⟨h1, h2⟩
      rcases ih h with ⟨h3, h4⟩
      exact ⟨h3.trans h1, h4.trans h2⟩

theorem parseWayRecord_pres {st : UnoState} {w : List (List Char × Int)}
    {l : List Char} {p : UnoState × List (List Char × Int)}
    (h : parseWayRecord st w l = Except.ok p) :
    p.1.stations = st.stations ∧
    ∀ r ∈ p.1.routes, ∃ r0 ∈ st.routes, r.trips = r0.trips := by
  simp only [parseWayRecord] at h
  rcases exceptBind_ok h with ⟨f0, _, h⟩
  rcases exceptBind_ok h with ⟨rest, _, h⟩
  split at h
  · exact absurd h (by simp)
  · rename_i ri _
    rcases exceptBind_ok h with ⟨rt, hrt, h⟩
    rcases exceptBind_ok h with ⟨newSts, _, h⟩
    split at h
    · exact absurd h (by simp)
    · rcases exceptBind_ok h with ⟨f1, _, h⟩
      split at h
      · rcases exceptBind_ok h with ⟨ln, _, h⟩
        cases h
        refine ⟨rfl, ?_⟩
        intro r hr
        rcases List.mem_or_eq_of_mem_set hr with hmem | heq
        · exact ⟨r, hmem, rfl⟩
        · subst heq
          exact ⟨rt, goIndex_mem hrt, rfl⟩
      · exact absurd h (by simp)

theorem parseWayLines_pres : ∀ {ls : List (List Char)}
    {w : List (List Char × Int)} {st st2 : UnoState},
    parseWayLines st w ls = Except.ok st2 →
    st2.stations = st.stations ∧
    ∀ r ∈ st2.routes, ∃ r0 ∈ st.routes, r.trips = r0.trips := by
  intro ls
  induction ls with
  | nil =>
    intro w st st2 h
    cases h
    exact ⟨rfl, fun r hr => ⟨r, hr, rfl⟩⟩
  | cons l rest ih =>
    intro w st st2 h
    unfold parseWayLines at h
    split at h
    · exact absurd h (by simp)
    · rename_i st1 w1 heq
      rcases parseWayRecord_pres heq with ⟨h1, h2⟩
      rcases ih h with ⟨h3, h4⟩
      refine ⟨h3.trans h1, ?_⟩
      intro r hr
      rcases h4 r hr with ⟨r1, hr1, e1⟩
      rcases h2 r1 hr1 with ⟨r0, hr0, e0⟩
      exact ⟨r0, hr0, e1.trans e0⟩

theorem parseWayScheduleRecord_pres {defs : List (List Char × MetromanSchedule)}
    {st : UnoState} {l : List Char} {st2 : UnoState}
    (h : parseWayScheduleRecord defs st l = Except.ok st2) :
    st2.stations = st.stations ∧
    ∀ r ∈ st2.routes, ∃ r0 ∈ st.routes, r.trips = r0.trips := by
  simp only [parseWayScheduleRecord] at h
  rcases exceptBind_ok h with ⟨r, _, h⟩
  rcases exceptBind_ok h with ⟨f0, _, h⟩
  split at h
  · exact absurd h (by simp)
  · rename_i ri _
    rcases exceptBind_ok h with ⟨rt, hrt, h⟩
    cases h
    refine ⟨rfl, ?_⟩
    intro r hr
    rcases List.mem_or_eq_of_mem_set hr with hmem | heq
    · exact ⟨r, hmem, rfl⟩
    · subst heq
      exact ⟨rt, goIndex_mem hrt, rfl⟩

theorem parseWayScheduleLines_pres {defs : List (List Char × MetromanSchedule)} :
    ∀ {ls : List (List Char)} {st st2 : UnoState},
    parseWayScheduleLines defs st ls = Except.ok st2 →
    st2.stations = st.stations ∧
    ∀ r ∈ st2.routes, ∃ r0 ∈ st.routes, r.trips = r0.trips := by
  intro ls
  induction ls with
  | nil =>
    intro st st2 h
    cases h
    exact ⟨rfl, fun r hr => ⟨r, hr, rfl⟩⟩
  | cons l rest ih =>
    intro st st2 h
    unfold parseWayScheduleLines at h
    split at h
    · exact absurd h (by simp)
    · rename_i st1 heq
      rcases parseWayScheduleRecord_pres heq with ⟨h1, h2⟩
      rcases ih h with ⟨h3, h4⟩
      refine ⟨h3.trans h1, ?_⟩
      intro r hr
      rcases h4 r hr with ⟨r1, hr1, e1⟩
      rcases h2 r1 hr1 with ⟨r0, hr0, e0⟩
      exact ⟨r0, hr0, e1.trans e0⟩

theorem get?_append_singleton {α : Type} (l : List α) (x : α) (i : Nat) (v : α)
    (h : (l ++ [x]).get? i = some v) : l.get? i = some v ∨ (i = l.length ∧ v = x) := by
  by_cases hi : i < l.length
  · left
    rw [List.get?_append hi] at h
    exact h
  · right
    rw [List.get?_append_right (le_of_not_lt hi)] at h
    rcases Nat.lt_or_ge (i - l.length) 1 with hz | hz
    · have hz0 : i - l.length = 0 := by omega
      rw [hz0] at h
      cases h
      exact ⟨by omega, rfl⟩
    · rw [List.get?_eq_none.mpr (by simp; omega)] at h
      cases h

theorem goIndex_ok_getElem {α : Type} {xs : List α} {i : Nat} {v : α}
    (h : goIndex xs i = Except.ok v) : xs[i]? = some v := by
  rw [← List.get?_eq_getElem?]
  exact goIndex_ok_iff.mp h

theorem parseUnoRecord_stations {gd : ℚ → ℚ → ℚ × ℚ} {st : UnoState}
    {l : List Char} {st2 : UnoState} (h : parseUnoRecord gd st l = Except.ok st2) :
    ((isMSLine l = true ∧ ∃ s, st2.stations = st.stations ++ [s] ∧
        s.index = st.stationIndex ∧ s.code = unoRecordCode l ∧
        st2.stationIndex = st.stationIndex + 1) ∨
      (isMSLine l = false ∧ st2.stations = st.stations ∧
        st2.stationIndex = st.stationIndex)) ∧
    ∀ r ∈ st2.routes, r ∈ st.routes ∨ r.trips = [] := by
  simp only [parseUnoRecord] at h
  rcases exceptBind_ok h with ⟨f1, hf1, h⟩
  have hget1 := goIndex_ok_getElem hf1
  split at h
  · rename_i hms
    rcases exceptBind_ok h with ⟨f8, _, h⟩
    rcases exceptBind_ok h with ⟨f9, _, h⟩
    rcases exceptBind_ok h with ⟨f10, _, h⟩
    rcases exceptBind_ok h with ⟨f11, _, h⟩
    rcases exceptBind_ok h with ⟨f0, hf0, h⟩
    rcases exceptBind_ok h with ⟨f2, _, h⟩
    rcases exceptBind_ok h with ⟨f3, _, h⟩
    rcases exceptBind_ok h with ⟨f4, _, h⟩
    rcases exceptBind_ok h with ⟨f5, _, h⟩
    rcases exceptBind_ok h with ⟨f6, _, h⟩
    rcases exceptBind_ok h with ⟨f7, _, h⟩
    cases h
    constructor
    · left
      refine ⟨by simp [isMSLine, hget1, hms], _, rfl, rfl, ?_, rfl⟩
      simp [unoRecordCode, goIndex_ok_getElem hf0]
    · intro r hr
      exact Or.inl hr
  · rename_i hms
    split at h
    · rcases exceptBind_ok h with ⟨f0, _, h⟩
      rcases exceptBind_ok h with ⟨f2, _, h⟩
      rcases exceptBind_ok h with ⟨f3, _, h⟩
      rcases exceptBind_ok h with ⟨f4, _, h⟩
      rcases exceptBind_ok h with ⟨f5, _, h⟩
      rcases exceptBind_ok h with ⟨f7, _, h⟩
      rcases exceptBind_ok h with ⟨f12, _, h⟩
      cases h
      exact ⟨Or.inr ⟨by simp [isMSLine, hget1, hms], rfl, rfl⟩, fun r hr => Or.inl hr⟩
    · split at h
      · rcases exceptBind_ok h with ⟨f0, _, h⟩
        rcases exceptBind_ok h with ⟨f2, _, h⟩
        rcases exceptBind_ok h with ⟨f3, _, h⟩
        rcases exceptBind_ok h with ⟨f4, _, h⟩
        rcases exceptBind_ok h with ⟨f5, _, h⟩
        cases h
        refine ⟨Or.inr ⟨by simp [isMSLine, hget1, hms], rfl, rfl⟩, ?_⟩
        intro r hr
        rcases List.mem_append.mp hr with hmem | hnew
        · exact Or.inl hmem
        · right
          rcases List.mem_singleton.mp hnew with rfl
          rfl
      · cases h
        exact ⟨Or.inr ⟨by simp [isMSLine, hget1, hms], rfl, rfl⟩, fun r hr => Or.inl hr⟩

theorem parseUnoLines_build {gd : ℚ → ℚ → ℚ × ℚ} :
    ∀ {ls : List (List Char)} {st st2 : UnoState},
    parseUnoLines gd st ls = Except.ok st2 →
    st2.stations.map (fun s => s.code) =
      st.stations.map (fun s => s.code) ++ (ls.filter isMSLine).map unoRecordCode ∧
    (StationsIndexed st → StationsIndexed st2) ∧
    ∀ r ∈ st2.routes, r ∈ st.routes ∨ r.trips = [] := by
  intro ls
  induction ls with
  | nil =>
    intro st st2 h
    cases h
    exact ⟨by simp, id, fun r hr => Or.inl hr⟩
  | cons l rest ih =>
    intro st st2 h
    unfold parseUnoLines at h
    split at h
    · exact absurd h (by simp)
    · rename_i st1 heq
      rcases parseUnoRecord_stations heq with ⟨hshape, hroutes⟩
      rcases ih h with ⟨hcodes, hindexed, hroutes2⟩
      refine ⟨?_, ?_, ?_⟩
      · rcases hshape with ⟨hms, s, hst, hsidx, hscode, hctr⟩ | ⟨hms, hst, hctr⟩
        · rw [hcodes, hst, List.filter_cons_of_pos (by simp [hms])]
          simp [hscode]
        · rw [hcodes, hst, List.filter_cons_of_neg (by simp [hms])]
      · intro hind
        refine hindexed ?_
        rcases hshape with ⟨hms, s, hst, hsidx, hscode, hctr⟩ | ⟨hms, hst, hctr⟩
        · constructor
          · rw [hctr, hst, hind.1]
            simp
          · intro i sv hget
            rw [hst] at hget
            rcases get?_append_singleton _ _ _ _ hget with hold | ⟨hi, hv⟩
            · exact hind.2 i sv hold
            · rw [hv, hsidx, hind.1, hi]
        · constructor
          · rw [hctr, hst, hind.1]
          · intro i sv hget
            rw [hst] at hget
            exact hind.2 i sv hget
      · intro r hr
        rcases hroutes2 r hr with hmem | hnil
        · exact hroutes r hmem
        · exact Or.inr hnil

theorem recLoopFirst_inv {stations : List MetromanStation} :
    ∀ {ads : List (Int × Int)} {trips : List MetromanTrip}
      {assigned : List (Int × Nat)} {p : List MetromanTrip × List (Int × Nat)},
    recLoopFirst stations ads trips assigned = Except.ok p →
    (∀ t ∈ trips, 2 ≤ t.visits.length) → ∀ t ∈ p.1, 2 ≤ t.visits.length := by
  intro ads
  induction ads with
  | nil =>
    intro trips assigned p h hinv
    cases h
    exact hinv
  | cons rec rest ih =>
    obtain ⟨arrive, depart⟩ := rec
    intro trips assigned p h hinv
    simp only [recLoopFirst] at h
    rcases exceptBind_ok h with ⟨s0, _, h⟩
    rcases exceptBind_ok h with ⟨s1, _, h⟩
    refine ih h ?_
    intro t ht
    rcases List.mem_append.mp ht with hmem | hnew
    · exact hinv t hmem
    · rcases List.mem_singleton.mp hnew with rfl
      simp

theorem recLoopLater_inv {stations : List MetromanStation} {stationI : Nat}
    {tripEnded : List Bool} {last : List (Int × Nat)} :
    ∀ {ads : List (Int × Int)} {trips : List MetromanTrip}
      {assigned : List (Int × Nat)} {p : List MetromanTrip × List (Int × Nat)},
    recLoopLater stations stationI tripEnded last ads trips assigned = Except.ok p →
    (∀ t ∈ trips, 2 ≤ t.visits.length) → ∀ t ∈ p.1, 2 ≤ t.visits.length := by
  intro ads
  induction ads with
  | nil =>
    intro trips assigned p h hinv
    cases h
    exact hinv
  | cons rec rest ih =>
    obtain ⟨arrive, depart⟩ := rec
    intro trips assigned p h hinv
    simp only [recLoopLater] at h
    split at h
    · rename_i ti _
      rcases exceptBind_ok h with ⟨t, hti, h⟩
      rcases exceptBind_ok h with ⟨sNext, _, h⟩
      refine ih h ?_
      intro t2 ht2
      rcases List.mem_or_eq_of_mem_set ht2 with hmem | heq
      · exact hinv t2 hmem
      · subst heq
        have := hinv t (goIndex_mem hti)
        simp only [List.length_append, List.length_singleton]
        omega
    · rcases exceptBind_ok h with ⟨sI, _, h⟩
      rcases exceptBind_ok h with ⟨sN, _, h⟩
      refine ih h ?_
      intro t ht
      rcases List.mem_append.mp ht with hmem | hnew
      · exact hinv t hmem
      · rcases List.mem_singleton.mp hnew with rfl
        simp

theorem hopStep_inv {stations : List MetromanStation} {s2s : List (Nat × Nat)}
    {schedAds : List (List (Int × Int))} {stationI : Nat}
    {stt p : List MetromanTrip × List (Int × Nat)}
    (h : hopStep stations s2s schedAds stationI stt = Except.ok p)
    (hinv : ∀ t ∈ stt.1, 2 ≤ t.visits.length) : ∀ t ∈ p.1, 2 ≤ t.visits.length := by
  simp only [hopStep] at h
  rcases exceptBind_ok h with ⟨sI, _, h⟩
  rcases exceptBind_ok h with ⟨thisAds, _, h⟩
  split at h
  · exact recLoopFirst_inv h hinv
  · exact recLoopLater_inv h hinv

theorem hopLoop_inv {stations : List MetromanStation} {s2s : List (Nat × Nat)}
    {schedAds : List (List (Int × Int))} :
    ∀ {hops : List Nat} {stt p : List MetromanTrip × List (Int × Nat)},
    hopLoop stations s2s schedAds hops stt = Except.ok p →
    (∀ t ∈ stt.1, 2 ≤ t.visits.length) → ∀ t ∈ p.1, 2 ≤ t.visits.length := by
  intro hops
  induction hops with
  | nil =>
    intro stt p h hinv
    cases h
    exact hinv
  | cons i rest ih =>
    intro stt p h hinv
    unfold hopLoop at h
    split at h
    · exact absurd h (by simp)
    · rename_i stt2 heq
      exact ih h (hopStep_inv heq hinv)

theorem reconstructSchedule_inv {stations : List MetromanStation}
    {s2s : List (Nat × Nat)} {schedAds : List (List (Int × Int))}
    {trips : List MetromanTrip}
    (h : reconstructSchedule stations s2s schedAds = Except.ok trips) :
    ∀ t ∈ trips, 2 ≤ t.visits.length := by
  simp only [reconstructSchedule] at h
  rcases exceptBind_ok h with ⟨p, hp, h⟩
  cases h
  exact hopLoop_inv hp (by simp)

theorem reconstructTrips_inv {stations : List MetromanStation}
    {s2s : List (Nat × Nat)} :
    ∀ {sads : List (List (List (Int × Int)))} {tss : List (List MetromanTrip)},
    reconstructTrips stations s2s sads = Except.ok tss →
    ∀ ts ∈ tss, ∀ t ∈ ts, 2 ≤ t.visits.length := by
  intro sads
  induction sads with
  | nil =>
    intro tss h
    cases h
    simp
  | cons s rest ih =>
    intro tss h
    simp only [reconstructTrips] at h
    rcases exceptBind_ok h with ⟨t, ht, h⟩
    rcases exceptBind_ok h with ⟨more, hmore, h⟩
    cases h
    intro ts hts
    rcases List.mem_cons.mp hts with rfl | hmem
    · exact reconstructSchedule_inv ht
    · exact ih hmore ts hmem

theorem processRoute_inv {bundle : List (List Char × List Char)} {pfx : List Char}
    {rt rt2 : MetromanRoute} (h : processRoute bundle pfx rt = Except.ok rt2)
    (hnil : rt.trips = []) :
    rt2.code = rt.code ∧
    (ReadFileFromZip bundle (pfx ++ '/' :: (rt2.code ++ ".csv".data)) = none →
      rt2.trips = []) ∧
    ∀ ts ∈ rt2.trips, ∀ t ∈ ts, 2 ≤ t.visits.length := by
  unfold processRoute at h
  split at h
  · cases h
    exact ⟨rfl, fun _ => hnil, by simp [hnil]⟩
  · rename_i contents hread
    simp only [] at h
    split at h
    · exact absurd h (by simp)
    · split at h
      · exact absurd h (by simp)
      · rename_i trips htr
        cases h
        refine ⟨rfl, ?_, reconstructTrips_inv htr⟩
        intro hnone
        rw [hread] at hnone
        cases hnone

theorem processRoutes_inv {bundle : List (List Char × List Char)} {pfx : List Char} :
    ∀ {rs rs2 : List MetromanRoute},
    processRoutes bundle pfx rs = Except.ok rs2 →
    (∀ r ∈ rs, r.trips = []) →
    ∀ r2 ∈ rs2,
      (ReadFileFromZip bundle (pfx ++ '/' :: (r2.code ++ ".csv".data)) = none →
        r2.trips = []) ∧
      ∀ ts ∈ r2.trips, ∀ t ∈ ts, 2 ≤ t.visits.length := by
  intro rs
  induction rs with
  | nil =>
    intro rs2 h hnil
    cases h
    simp
  | cons r rest ih =>
    intro rs2 h hnil
    simp only [processRoutes] at h
    rcases exceptBind_ok h with ⟨r2, hr2, h⟩
    rcases exceptBind_ok h with ⟨rest2, hrest2, h⟩
    cases h
    intro r3 hr3
    rcases List.mem_cons.mp hr3 with rfl | hmem
    · rcases processRoute_inv hr2 (hnil r (List.mem_cons_self r rest)) with ⟨_, h2, h3⟩
      exact ⟨h2, h3⟩
    · exact ih hrest2 (fun r4 hr4 => hnil r4 (List.mem_cons_of_mem r hr4)) r3 hmem

theorem loadCity_ok_chain {gd : ℚ → ℚ → ℚ × ℚ} {pfx : List Char}
    {bundle : List (List Char × List Char)} {city : MetromanCity}
    (h : LoadCity gd pfx bundle = Except.ok city) :
    ∃ unoCsv st1 lineCsv st2 wayCsv st3 defs wayScheduleCsv st4,
      ReadFileFromZip bundle (pfx ++ "/uno.csv".data) = some unoCsv ∧
      parseUnoLines gd emptyUnoState (splitSep2 '\r' '\n' unoCsv []) = Except.ok st1 ∧
      ReadFileFromZip bundle (pfx ++ "/line.csv".data) = some lineCsv ∧
      parseLineLines st1 (splitSep2 '\r' '\n' lineCsv []) = Except.ok st2 ∧
      ReadFileFromZip bundle (pfx ++ "/way.csv".data) = some wayCsv ∧
      parseWayLines st2 [] (splitSep2 '\r' '\n' wayCsv []) = Except.ok st3 ∧
      (ReadFileFromZip bundle (pfx ++ "/fare.csv".data)).isSome = true ∧
      (ReadFileFromZip bundle (pfx ++ "/holiday.csv".data)).isSome = true ∧
      (ReadFileFromZip bundle (pfx ++ "/schedule.csv".data)).isSome = true ∧
      ReadFileFromZip bundle (pfx ++ "/wayschedule.csv".data) = some wayScheduleCsv ∧
      parseWayScheduleLines defs st3 (splitSep2 '\r' '\n' wayScheduleCsv []) =
        Except.ok st4 ∧
      processRoutes bundle pfx st4.routes = Except.ok city.routes ∧
      (ReadFileFromZip bundle (pfx ++ "/path_latlng.csv".data)).isSome = true ∧
      (ReadFileFromZip bundle (pfx ++ "/path_rail.csv".data)).isSome = true ∧
      city.stations = st4.stations := by
  unfold LoadCity at h
  rcases exceptBind_ok h with ⟨unoCsv, hr1, h⟩
  rcases exceptBind_ok h with ⟨st1, hp1, h⟩
  rcases exceptBind_ok h with ⟨lineCsv, hr2, h⟩
  rcases exceptBind_ok h with ⟨st2, hp2, h⟩
  rcases exceptBind_ok h with ⟨wayCsv, hr3, h⟩
  rcases exceptBind_ok h with ⟨st3, hp3, h⟩
  rcases exceptBind_ok h with ⟨fareCsv, hr4, h⟩
  rcases exceptBind_ok h with ⟨fares, hp4, h⟩
  rcases exceptBind_ok h with ⟨holidayCsv, hr5, h⟩
  rcases exceptBind_ok h with ⟨holidays, hp5, h⟩
  rcases exceptBind_ok h with ⟨scheduleCsv, hr6, h⟩
  rcases exceptBind_ok h with ⟨defs, hp6, h⟩
  rcases exceptBind_ok h with ⟨wayScheduleCsv, hr7, h⟩
  rcases exceptBind_ok h with ⟨st4, hp7, h⟩
  rcases exceptBind_ok h with ⟨routes2, hp8, h⟩
  rcases exceptBind_ok h with ⟨pathLatlngCsv, hr8, h⟩
  rcases exceptBind_ok h with ⟨coords, hp9, h⟩
  rcases exceptBind_ok h with ⟨pathRailCsv, hr9, h⟩
  rcases exceptBind_ok h with ⟨lines2, hp10, h⟩
  cases h
  exact ⟨unoCsv, st1, lineCsv, st2, wayCsv, st3, defs, wayScheduleCsv, st4,
    require_ok hr1, hp1, require_ok hr2, hp2, require_ok hr3, hp3,
    by rw [require_ok hr4]; rfl, by rw [require_ok hr5]; rfl,
    by rw [require_ok hr6]; rfl, require_ok hr7, hp7, hp8,
    by rw [require_ok hr8]; rfl, by rw [require_ok hr9]; rfl, rfl⟩

theorem loadCity_routes_trips_nil {gd : ℚ → ℚ → ℚ × ℚ} {st4 : UnoState}
    {unoCsv lineCsv wayCsv wayScheduleCsv : List Char} {st1 st2 st3 : UnoState}
    {defs : List (List Char × MetromanSchedule)}
    (hp1 : parseUnoLines gd emptyUnoState (splitSep2 '\r' '\n' unoCsv []) = Except.ok st1)
    (hp2 : parseLineLines st1 (splitSep2 '\r' '\n' lineCsv []) = Except.ok st2)
    (hp3 : parseWayLines st2 [] (splitSep2 '\r' '\n' wayCsv []) = Except.ok st3)
    (hp7 : parseWayScheduleLines defs st3 (splitSep2 '\r' '\n' wayScheduleCsv []) =
      Except.ok st4) :
    ∀ r ∈ st4.routes, r.trips = [] := by
  intro r hr
  rcases (parseWayScheduleLines_pres hp7).2 r hr with ⟨r3, hr3, e3⟩
  rcases (parseWayLines_pres hp3).2 r3 hr3 with ⟨r2, hr2, e2⟩
  rw [(parseLineLines_pres hp2).2] at hr2
  rcases (parseUnoLines_build hp1).2.2 r2 hr2 with hmem | hnil
  · cases hmem
  · rw [e3, e2, hnil]

theorem mapLookup_mem {α β : Type} [DecidableEq α] :
    ∀ {m : List (α × β)} {k : α} {v : β}, mapLookup m k = some v → (k, v) ∈ m := by
  intro m
  induction m with
  | nil =>
    intro k v h
    cases h
  | cons e rest ih =>
    obtain ⟨k2, v2⟩ := e
    intro k v h
    unfold mapLookup at h
    split at h
    · rename_i hk
      cases h
      subst hk
      exact List.mem_cons_self _ _
    · exact List.mem_cons_of_mem _ (ih h)

theorem mapInsert_mem {α β : Type} [DecidableEq α] :
    ∀ {m : List (α × β)} {k : α} {v : β} {e : α × β},
    e ∈ mapInsert m k v → e ∈ m ∨ e = (k, v) := by
  intro m
  induction m with
  | nil =>
    intro k v e h
    simp only [mapInsert] at h
    exact Or.inr (List.mem_singleton.mp h)
  | cons e2 rest ih =>
    obtain ⟨k2, v2⟩ := e2
    intro k v e h
    simp only [mapInsert] at h
    split at h
    · rcases List.mem_cons.mp h with rfl | hmem
      · exact Or.inr rfl
      · exact Or.inl (List.mem_cons_of_mem _ hmem)
    · rcases List.mem_cons.mp h with rfl | hmem
      · exact Or.inl (List.mem_cons_self _ _)
      · rcases ih hmem with hold | hnew
        · exact Or.inl (List.mem_cons_of_mem _ hold)
        · exact Or.inr hnew

theorem recLoopFirst_untouched {stations : List MetromanStation} {ti : Nat} :
    ∀ {ads : List (Int × Int)} {trips : List MetromanTrip}
      {assigned : List (Int × Nat)} {p : List MetromanTrip × List (Int × Nat)},
    recLoopFirst stations ads trips assigned = Except.ok p →
    ti < trips.length → (∀ e ∈ assigned, e.2 ≠ ti) →
    p.1.get? ti = trips.get? ti ∧ ∀ e ∈ p.2, e.2 ≠ ti := by
  intro ads
  induction ads with
  | nil =>
    intro trips assigned p h hlt hass
    cases h
    exact ⟨rfl, hass⟩
  | cons rec rest ih =>
    obtain ⟨arrive, depart⟩ := rec
    intro trips assigned p h hlt hass
    simp only [recLoopFirst] at h
    rcases exceptBind_ok h with ⟨s0, _, h⟩
    rcases exceptBind_ok h with ⟨s1, _, h⟩
    have hlt2 : ti < (trips ++ [(⟨false, [⟨s0, depart⟩, ⟨s1, arrive⟩]⟩ : MetromanTrip)]).length := by
      simp only [List.length_append, List.length_singleton]
      omega
    have hass2 : ∀ e ∈ mapInsert assigned arrive
        ((trips ++ [(⟨false, [⟨s0, depart⟩, ⟨s1, arrive⟩]⟩ : MetromanTrip)]).length - 1),
        e.2 ≠ ti := by
      intro e he
      rcases mapInsert_mem he with hold | rfl
      · exact hass e hold
      · simp only [List.length_append, List.length_singleton]
        omega
    rcases ih h hlt2 hass2 with ⟨hget, hass3⟩
    exact ⟨hget.trans (List.get?_append hlt), hass3⟩

theorem recLoopLater_untouched {stations : List MetromanStation} {stationI : Nat}
    {tripEnded : List Bool} {last : List (Int × Nat)} {ti : Nat}
    (hlast : ∀ e ∈ last, e.2 ≠ ti) :
    ∀ {ads : List (Int × Int)} {trips : List MetromanTrip}
      {assigned : List (Int × Nat)} {p : List MetromanTrip × List (Int × Nat)},
    recLoopLater stations stationI tripEnded last ads trips assigned = Except.ok p →
    ti < trips.length → (∀ e ∈ assigned, e.2 ≠ ti) →
    p.1.get? ti = trips.get? ti ∧ ∀ e ∈ p.2, e.2 ≠ ti := by
  intro ads
  induction ads with
  | nil =>
    intro trips assigned p h hlt hass
    cases h
    exact ⟨rfl, hass⟩
  | cons rec rest ih =>
    obtain ⟨arrive, depart⟩ := rec
    intro trips assigned p h hlt hass
    simp only [recLoopLater] at h
    split at h
    · rename_i tj heq
      have htj : mapLookup last depart = some tj := by
        cases hml : mapLookup last depart with
        | none => rw [hml] at heq; simp at heq
        | some tk =>
          rw [hml] at heq
          simp only [] at heq
          split at heq
          · simp at heq
          · cases heq
            rfl
      have hne : tj ≠ ti := hlast (depart, tj) (mapLookup_mem htj)
      rcases exceptBind_ok h with ⟨t, _, h⟩
      rcases exceptBind_ok h with ⟨sNext, _, h⟩
      have hlt2 : ti < (trips.set tj
          { t with visits := t.visits ++ [⟨sNext, arrive⟩], tripEnded := false }).length := by
        simp only [List.length_set]
        exact hlt
      have hass2 : ∀ e ∈ mapInsert assigned arrive tj, e.2 ≠ ti := by
        intro e he
        rcases mapInsert_mem he with hold | rfl
        · exact hass e hold
        · exact hne
      rcases ih h hlt2 hass2 with ⟨hget, hass3⟩
      refine ⟨hget.trans ?_, hass3⟩
      rw [List.get?_set_ne _ _ hne]
    · rcases exceptBind_ok h with ⟨sI, _, h⟩
      rcases exceptBind_ok h with ⟨sN, _, h⟩
      have hlt2 : ti < (trips ++ [(⟨false, [⟨sI, depart⟩, ⟨sN, arrive⟩]⟩ : MetromanTrip)]).length := by
        simp only [List.length_append, List.length_singleton]
        omega
      have hass2 : ∀ e ∈ mapInsert assigned arrive
          ((trips ++ [(⟨false, [⟨sI, depart⟩, ⟨sN, arrive⟩]⟩ : MetromanTrip)]).length - 1),
          e.2 ≠ ti := by
        intro e he
        rcases mapInsert_mem he with hold | rfl
        · exact hass e hold
        · simp only [List.length_append, List.length_singleton]
          omega
      rcases ih h hlt2 hass2 with ⟨hget, hass3⟩
      exact ⟨hget.trans (List.get?_append hlt), hass3⟩

theorem hopStep_untouched {stations : List MetromanStation} {s2s : List (Nat × Nat)}
    {schedAds : List (List (Int × Int))} {stationI : Nat}
    {stt p : List MetromanTrip × List (Int × Nat)} {ti : Nat}
    (h : hopStep stations s2s schedAds stationI stt = Except.ok p)
    (hlt : ti < stt.1.length) (hass : ∀ e ∈ stt.2, e.2 ≠ ti) :
    p.1.get? ti = stt.1.get? ti ∧ ∀ e ∈ p.2, e.2 ≠ ti := by
  simp only [hopStep] at h
  rcases exceptBind_ok h with ⟨sI, _, h⟩
  rcases exceptBind_ok h with ⟨thisAds, _, h⟩
  split at h
  · exact recLoopFirst_untouched h hlt hass
  · exact recLoopLater_untouched hass h hlt (by simp)

/-- The behavioral half of the spec's trip-ending description, proved
directly against the code: entries for a trip index are inserted into the
per-hop continuation index only when that trip is extended or created
during the hop, so once the index carries no entry for trip `ti` — the
state after any hop in which `ti` was not extended — trip `ti` is never
modified (in particular never extended) during any later hop, even though
the ended flag itself is never set (see `trip_ended_flag_never_set`). -/
theorem hopLoop_unextended_stays {stations : List MetromanStation}
    {s2s : List (Nat × Nat)} {schedAds : List (List (Int × Int))} {ti : Nat} :
    ∀ {hops : List Nat} {stt p : List MetromanTrip × List (Int × Nat)},
    hopLoop stations s2s schedAds hops stt = Except.ok p →
    ti < stt.1.length → (∀ e ∈ stt.2, e.2 ≠ ti) →
    p.1.get? ti = stt.1.get? ti := by
  intro hops
  induction hops with
  | nil =>
    intro stt p h hlt hass
    cases h
    rfl
  | cons i rest ih =>
    intro stt p h hlt hass
    unfold hopLoop at h
    split at h
    · exact absurd h (by simp)
    · rename_i stt2 heq
      rcases hopStep_untouched heq hlt hass with ⟨hget, hass2⟩
      have hlt2 : ti < stt2.1.length := by
        rcases Nat.lt_or_ge ti stt2.1.length with hx | hx
        · exact hx
        · exfalso
          have hcon := List.get?_eq_none.mpr hx
          rw [hget, List.get?_eq_none] at hcon
          omega
      exact (ih h hlt2 hass2).trans hget

/-! ## Claim theorems: loader -/

/-- C8: a required table absent from the bundle makes the whole city load
fail (it can never return a city), while a missing per-route timing table
is non-fatal: a successfully loaded city simply has zero trips on every
route whose timing table is absent. -/
theorem missing_table_fatal_timing_nonfatal (gd : ℚ → ℚ → ℚ × ℚ) (pfx : List Char)
    (bundle : List (List Char × List Char)) :
    (∀ name ∈ requiredTables pfx, ReadFileFromZip bundle name = none →
      ∀ city, ¬ LoadCity gd pfx bundle = Except.ok city) ∧
    ∀ city, LoadCity gd pfx bundle = Except.ok city →
      ∀ route ∈ city.routes,
        ReadFileFromZip bundle (pfx ++ '/' :: (route.code ++ ".csv".data)) = none →
        route.trips = [] := by
  constructor
  · intro name hmem hnone city hok
    rcases loadCity_ok_chain hok with
      ⟨unoCsv, st1, lineCsv, st2, wayCsv, st3, defs, wayScheduleCsv, st4,
       hu, _, hl, _, hw, _, hf, hh, hs, hws, _, _, hpl, hpr, _⟩
    simp only [requiredTables, List.mem_cons, List.not_mem_nil, or_false] at hmem
    rcases hmem with rfl | rfl | rfl | rfl | rfl | rfl | rfl | rfl | rfl
    · rw [hu] at hnone; cases hnone
    · rw [hl] at hnone; cases hnone
    · rw [hw] at hnone; cases hnone
    · rw [hnone] at hf; cases hf
    · rw [hnone] at hh; cases hh
    · rw [hnone] at hs; cases hs
    · rw [hws] at hnone; cases hnone
    · rw [hnone] at hpl; cases hpl
    · rw [hnone] at hpr; cases hpr
  · intro city hok route hmem hnone
    rcases loadCity_ok_chain hok with
      ⟨unoCsv, st1, lineCsv, st2, wayCsv, st3, defs, wayScheduleCsv, st4,
       _, hp1, _, hp2, _, hp3, _, _, _, _, hp7, hpr8, _, _, _⟩
    have hnil := loadCity_routes_trips_nil hp1 hp2 hp3 hp7
    exact (processRoutes_inv hpr8 hnil route hmem).1 hnone

/-- Witness for C8: the empty bundle (uno.csv absent) can load no city,
and in the city loaded from `wBundle` (all required tables present,
timing table for route R1 absent) route R1 has zero trips. -/
theorem missing_table_fatal_timing_nonfatal_witness :
    (¬ LoadCity delta0 "v".data [] = Except.ok default) ∧
    (wCity0.routes.headD default).trips = [] := by
  constructor
  · exact (missing_table_fatal_timing_nonfatal delta0 "v".data []).1
      ("v".data ++ "/uno.csv".data) (by simp [requiredTables]) rfl default
  · have h1 : wCity0.routes = (wCity0.routes.headD default) :: wCity0.routes.tail := rfl
    refine (missing_table_fatal_timing_nonfatal delta0 "v".data wBundle).2 wCity0 rfl
      (wCity0.routes.headD default) ?_ ?_
    · rw [h1]
      exact List.mem_cons_self _ _
    · rfl

/-- C9: in a loaded city, every station's assigned index equals its
position in the stations list (contiguous from 0), the station codes are
exactly the first fields of the `MS` records of uno.csv in file order,
and the load is a deterministic function of the bundle (any second
successful load of the same bundle yields the same city). -/
theorem station_indices_file_order (gd : ℚ → ℚ → ℚ × ℚ) (pfx : List Char)
    (bundle : List (List Char × List Char)) (city : MetromanCity)
    (h : LoadCity gd pfx bundle = Except.ok city) :
    (∀ (i : Nat) (s : MetromanStation), city.stations.get? i = some s → s.index = i) ∧
    (∃ unoCsv, ReadFileFromZip bundle (pfx ++ "/uno.csv".data) = some unoCsv ∧
      city.stations.map (fun s => s.code) =
        ((splitSep2 '\r' '\n' unoCsv []).filter isMSLine).map unoRecordCode) ∧
    ∀ city2, LoadCity gd pfx bundle = Except.ok city2 → city2 = city := by
  rcases loadCity_ok_chain h with
    ⟨unoCsv, st1, lineCsv, st2, wayCsv, st3, defs, wayScheduleCsv, st4,
     hu, hp1, _, hp2, _, hp3, _, _, _, _, hp7, _, _, _, hst⟩
  have hstations : city.stations = st1.stations := by
    rw [hst, (parseWayScheduleLines_pres hp7).1, (parseWayLines_pres hp3).1,
      (parseLineLines_pres hp2).1]
  rcases parseUnoLines_build hp1 with ⟨hcodes, hindexed, _⟩
  have hind : StationsIndexed st1 := by
    refine hindexed ⟨rfl, ?_⟩
    intro i s hget
    simp [emptyUnoState] at hget
  refine ⟨?_, ⟨unoCsv, hu, ?_⟩, ?_⟩
  · intro i s hget
    rw [hstations] at hget
    exact hind.2 i s hget
  · rw [hstations, hcodes]
    simp [emptyUnoState]
  · intro city2 h2
    rw [h] at h2
    exact (Except.ok.inj h2).symm

/-- Witness for C9 at the concrete bundle `wBundle`: the first loaded
station carries index 0. -/
theorem station_indices_file_order_witness :
    (wCity0.stations.headD default).index = 0 :=
  (station_indices_file_order delta0 "v".data wBundle wCity0 rfl).1 0
    (wCity0.stations.headD default) rfl

/-- C10: every trip of every route of a loaded city has at least two
visits: trips are only ever created with exactly two visits (the seeding
station pair) and extension only appends visits, so a consumer reading a
trip's first visit never indexes an empty visit list. -/
theorem loaded_trips_have_two_visits (gd : ℚ → ℚ → ℚ × ℚ) (pfx : List Char)
    (bundle : List (List Char × List Char)) (city : MetromanCity)
    (h : LoadCity gd pfx bundle = Except.ok city) :
    ∀ route ∈ city.routes, ∀ ts ∈ route.trips, ∀ t ∈ ts, 2 ≤ t.visits.length := by
  intro route hmem
  rcases loadCity_ok_chain h with
    ⟨unoCsv, st1, lineCsv, st2, wayCsv, st3, defs, wayScheduleCsv, st4,
     _, hp1, _, hp2, _, hp3, _, _, _, _, hp7, hpr8, _, _, _⟩
  have hnil := loadCity_routes_trips_nil hp1 hp2 hp3 hp7
  exact (processRoutes_inv hpr8 hnil route hmem).2

/-- Witness for C10 at the concrete bundle `wBundle2`: the one
reconstructed trip of route R1 has two visits. -/
theorem loaded_trips_have_two_visits_witness :
    2 ≤ (((wCity2.routes.headD default).trips.headD []).headD default).visits.length := by
  have h1 : wCity2.routes = (wCity2.routes.headD default) :: wCity2.routes.tail := rfl
  have h2 : (wCity2.routes.headD default).trips =
      ((wCity2.routes.headD default).trips.headD []) ::
        (wCity2.routes.headD default).trips.tail := rfl
  have h3 : (wCity2.routes.headD default).trips.headD [] =
      (((wCity2.routes.headD default).trips.headD []).headD default) ::
        ((wCity2.routes.headD default).trips.headD []).tail := rfl
  refine loaded_trips_have_two_visits delta0 "v".data wBundle2 wCity2 rfl
    (wCity2.routes.headD default) ?_
    ((wCity2.routes.headD default).trips.headD []) ?_
    ((((wCity2.routes.headD default).trips.headD []).headD default)) ?_
  · rw [h1]
    exact List.mem_cons_self _ _
  · rw [h2]
    exact List.mem_cons_self _ _
  · rw [h3]
    exact List.mem_cons_self _ _

end ChinaGtfs
